import Mathlib

/-!
# Verification of the hand-and-foot rules engine

A shallow embedding of `src/src/main.rs` (a Canasta-variant rules engine).
Rust `Vec` fields become `List`, `HashMap<Rank, Vec<Card>>` becomes an
association list `List (Rank × List Card)` (the source only ever looks up,
inserts and iterates entries; iteration order of the Rust `HashMap` is
unspecified, here it is the list order), `usize` becomes `Nat`, `isize`
becomes `Int`.  Mutating Rust methods become functions returning the new
state together with an `Option TurnError` (`none` = `Ok(())`), because the
source mutates in place and several error paths deliberately leave the
state changed.  `Deck` is a `List Card` whose head is the top of the pile
(Rust pushes/pops at the end of the `Vec`).
-/

set_option maxRecDepth 4000

inductive Round where
  | One | Two | Three | Four
deriving DecidableEq, Inhabited

/-- `Round::meld` from the source: the meld-point threshold of each round. -/
def Round.meld : Round → Nat
  | Round.One => 90
  | Round.Two => 120
  | Round.Three => 150
  | Round.Four => 180

inductive Rank where
  | Three | Four | Five | Six | Seven | Eight | Nine | Ten
  | Jack | Queen | King | Ace | Two
deriving DecidableEq, Inhabited

inductive Suit where
  | Diamond | Club | Heart | Spade
deriving DecidableEq, Inhabited

inductive Color where
  | Red | Black
deriving DecidableEq, Inhabited

/-- `Suit::color` from the source. -/
def Suit.color : Suit → Color
  | Suit.Heart => Color.Red
  | Suit.Diamond => Color.Red
  | Suit.Spade => Color.Black
  | Suit.Club => Color.Black

/-- `Rank::points` from the source. -/
def Rank.points : Rank → Nat
  | Rank.Ace => 20
  | Rank.Two => 20
  | Rank.Three => 0
  | Rank.Four => 5
  | Rank.Five => 5
  | Rank.Six => 5
  | Rank.Seven => 5
  | Rank.Eight => 10
  | Rank.Nine => 10
  | Rank.Ten => 10
  | Rank.Jack => 10
  | Rank.Queen => 10
  | Rank.King => 10

inductive Card where
  | Regular (r : Rank) (s : Suit)
  | Joker
deriving DecidableEq, Inhabited

/-- `Card::points` from the source: a red Three is worth 100, a Joker 50,
anything else its rank's points. -/
def Card.points : Card → Nat
  | Card.Regular Rank.Three s => if s.color = Color.Red then 100 else Rank.Three.points
  | Card.Regular r _ => r.points
  | Card.Joker => 50

/-- `Card::is_wild` from the source. -/
def Card.is_wild : Card → Bool
  | Card.Joker => true
  | Card.Regular Rank.Two _ => true
  | _ => false

/-- `Card::can_be_booked` from the source. -/
def Card.can_be_booked : Card → Bool
  | Card.Regular Rank.Three _ => false
  | Card.Regular Rank.Two _ => false
  | Card.Joker => false
  | _ => true

/-- `Card::rank` from the source. -/
def Card.rank : Card → Option Rank
  | Card.Regular r _ => some r
  | Card.Joker => none

/-- The predicate `matches!(c, Regular(Three, suit) if suit.color() == Red)`
used by `Game::resolve_red_threes`. -/
def isRedThree : Card → Bool
  | Card.Regular Rank.Three s => s.color == Color.Red
  | _ => false

inductive TurnError where
  | NotAllCardsMatchRank
  | MustKeepOneCardInHand
  | NotAllCardsInHand
  | TooManyCardsInBook
  | TooFewCardsInBook
  | TooManyWildsInBook
  | NotEnoughMeld
  | CanOnlyPickupBookable
  | NotEnoughCards
  | DeckIsLockedNeedTwoInHand
deriving DecidableEq, Inhabited

inductive TurnResult where
  | Over | Out
deriving DecidableEq, Inhabited

instance : DecidableEq (Except TurnError TurnResult) := fun x y =>
  match x, y with
  | Except.ok a, Except.ok b =>
    if h : a = b then isTrue (by rw [h]) else isFalse (by simp [h])
  | Except.error a, Except.error b =>
    if h : a = b then isTrue (by rw [h]) else isFalse (by simp [h])
  | Except.ok _, Except.error _ => isFalse (by simp)
  | Except.error _, Except.ok _ => isFalse (by simp)

/-- `DrawAction` from the source; the meld groups of a `Pickup` are the
`HashMap<Rank, Vec<Card>>` as an association list. -/
inductive DrawAction where
  | Pickup (groups : List (Rank × List Card))
  | Draw

/-- Lookup in the association-list model of `HashMap<Rank, Vec<Card>>`
(`play_area.get(&rank)`). -/
def areaGet : List (Rank × List Card) → Rank → Option (List Card)
  | [], _ => none
  | (k, v) :: rest, r => if k = r then some v else areaGet rest r

/-- Insert-or-replace in the association-list model (the effect of
`entry(rank)` followed by overwriting the entry's value). -/
def areaSet : List (Rank × List Card) → Rank → List Card → List (Rank × List Card)
  | [], r, v => [(r, v)]
  | (k, w) :: rest, r, v => if k = r then (r, v) :: rest else (k, w) :: areaSet rest r v

/-- The effect of `play_area.entry(rank).or_insert(vec![])` on the map
itself: an absent key is inserted with an empty vector. -/
def areaEnsure (pa : List (Rank × List Card)) (r : Rank) : List (Rank × List Card) :=
  if (areaGet pa r).isSome then pa else pa ++ [(r, [])]

structure PlayerCards where
  hand : List Card
  foot : Option (List Card)
  books : List (List Card)
  red_threes : Nat
  play_area : List (Rank × List Card)
deriving DecidableEq, Inhabited

/-- The loop in `can_play_rank` that checks every proposed card is in the
hand: walk the hand, each hand card removing (at most) one equal proposed
card; the cards left over at the end were not available in the hand. -/
def cardsLeftAfter (hand cards : List Card) : List Card :=
  hand.foldl (fun acc c => acc.erase c) cards

/-- The removal loop in `play_rank`: each played card removes its first
occurrence from the hand (`hand.remove(position(..))`). -/
def removeFromHand (hand cards : List Card) : List Card :=
  cards.foldl (fun acc c => acc.erase c) hand

/-- `PlayerCards::can_play_rank` from the source: the five validation
rules, evaluated in source order. -/
def PlayerCards.can_play_rank (p : PlayerCards) (rank : Rank) (cards : List Card) :
    Option TurnError :=
  if (cards.all fun c =>
      c.is_wild || (match c with
        | Card.Regular r _ => r == rank
        | Card.Joker => false)) = false then
    some TurnError.NotAllCardsMatchRank
  else if (cardsLeftAfter p.hand cards).isEmpty = false then
    some TurnError.NotAllCardsInHand
  else
    let already_played := areaGet p.play_area rank
    let num_wild := (already_played.getD []).countP Card.is_wild + cards.countP Card.is_wild
    let total_num := (already_played.getD []).length + cards.length
    if total_num > 7 then some TurnError.TooManyCardsInBook
    else if total_num < 3 then some TurnError.TooFewCardsInBook
    else if total_num - num_wild ≤ num_wild then some TurnError.TooManyWildsInBook
    else none

/-- `has_melded` in `PlayerCards::can_play`: some play-area entry holds a
card. -/
def PlayerCards.hasMelded (p : PlayerCards) : Bool :=
  p.play_area.any fun e => !e.2.isEmpty

/-- Total point value of all cards across all groups of a proposed play
(the flat-map/sum in `can_play`). -/
def groupPoints (cards : List (Rank × List Card)) : Nat :=
  (cards.map fun e => (e.2.map Card.points).sum).sum

/-- The `for (rank, cards) in cards.iter() { self.can_play_rank(..)? }` loop
of `can_play`: first error wins. -/
def firstRankErr (p : PlayerCards) : List (Rank × List Card) → Option TurnError
  | [] => none
  | (r, cs) :: rest =>
    match p.can_play_rank r cs with
    | some e => some e
    | none => firstRankErr p rest

/-- `PlayerCards::can_play` from the source. -/
def PlayerCards.can_play (p : PlayerCards) (round : Round)
    (cards : List (Rank × List Card)) : Option TurnError :=
  if p.hasMelded = false ∧ groupPoints cards < round.meld then
    some TurnError.NotEnoughMeld
  else firstRankErr p cards

/-- `book[0].rank()` used by the book classifiers (the source indexes the
first card of a book; it would panic on an empty book, which `none` models). -/
def headRank : List Card → Option Rank
  | [] => none
  | c :: _ => c.rank

/-- `PlayerCards::clean_books` from the source. -/
def PlayerCards.clean_books (p : PlayerCards) : Nat :=
  (p.books.filter fun book =>
    (book.all fun c => !c.is_wild) && !(headRank book == some Rank.Seven)).length

/-- `PlayerCards::dirty_books` from the source. -/
def PlayerCards.dirty_books (p : PlayerCards) : Nat :=
  (p.books.filter fun book => !(book.all fun c => !c.is_wild)).length

/-- `PlayerCards::seven_books` from the source. -/
def PlayerCards.seven_books (p : PlayerCards) : Nat :=
  (p.books.filter fun book =>
    (book.all fun c => !c.is_wild) && (headRank book == some Rank.Seven)).length

/-- `PlayerCards::can_go_out` from the source. -/
def PlayerCards.can_go_out (p : PlayerCards) : Bool :=
  1 ≤ p.clean_books && 1 ≤ p.dirty_books

/-- `PlayerCards::play_rank` from the source.  Returns the updated player
(the source mutates in place, and the `MustKeepOneCardInHand` branch
returns with the hand re-extended and the `or_insert`ed entry left behind)
together with the error, if any. -/
def PlayerCards.play_rank (p : PlayerCards) (rank : Rank) (cards : List Card) :
    PlayerCards × Option TurnError :=
  match p.can_play_rank rank cards with
  | some e => (p, some e)
  | none =>
    let can_go_out := p.can_go_out
    let already := (areaGet p.play_area rank).getD []
    let pa1 := areaEnsure p.play_area rank
    let hand1 := removeFromHand p.hand cards
    let entry := already ++ cards
    let commit := fun (q : PlayerCards) =>
      if entry.length = 7 then
        ({ q with play_area := areaSet pa1 rank [], books := q.books ++ [entry] },
          (none : Option TurnError))
      else
        ({ q with play_area := areaSet pa1 rank entry }, (none : Option TurnError))
    if hand1.length = 0 ∧ p.foot.isSome ∨ p.foot.isNone ∧ hand1.length ≤ 1 then
      match p.foot with
      | some f => commit { p with hand := f, foot := none }
      | none =>
        if can_go_out = false ∨ hand1.length = 0 then
          ({ p with hand := hand1 ++ cards, play_area := pa1 },
            some TurnError.MustKeepOneCardInHand)
        else commit { p with hand := hand1 }
    else commit { p with hand := hand1 }

/-- The commit loop of `PlayerCards::play`: `play_rank` each group in turn,
stopping at (and returning the state of) the first failure. -/
def playGroups (p : PlayerCards) : List (Rank × List Card) → PlayerCards × Option TurnError
  | [] => (p, none)
  | (r, cs) :: rest =>
    match p.play_rank r cs with
    | (p1, some e) => (p1, some e)
    | (p1, none) => playGroups p1 rest

/-- `PlayerCards::play` from the source: re-validate with `can_play`, then
commit each group with `play_rank`. -/
def PlayerCards.play (p : PlayerCards) (round : Round)
    (cards : List (Rank × List Card)) : PlayerCards × Option TurnError :=
  match p.can_play round cards with
  | some e => (p, some e)
  | none => playGroups p cards

/-- `Deck::take` from the source: remove the top `n` cards (here the list
head is the top of the pile), or fail when fewer remain. -/
def deckTake (d : List Card) (n : Nat) : Option (List Card × List Card) :=
  if n ≤ d.length then some (d.take n, d.drop n) else none

structure Game where
  players : List PlayerCards
  round : Round
  deck : List Card
  locked : Bool
  discard_pile : List Card
deriving DecidableEq, Inhabited

/-- `self.players[player_idx]` (the source would panic out of range; the
theorems below only use in-range indices). -/
def Game.player (g : Game) (i : Nat) : PlayerCards :=
  g.players.getD i default

/-- One 54-card deck in the order of `Card::iter` (13 ranks × 4 suits plus
two Jokers). -/
def fullDeck : List Card :=
  (List.flatMap [Rank.Three, Rank.Four, Rank.Five, Rank.Six, Rank.Seven, Rank.Eight,
      Rank.Nine, Rank.Ten, Rank.Jack, Rank.Queen, Rank.King, Rank.Ace, Rank.Two]
    fun r => [Suit.Diamond, Suit.Club, Suit.Heart, Suit.Spade].map (Card.Regular r))
  ++ [Card.Joker, Card.Joker]

/-- `k` concatenated 54-card decks: the card population `Deck::deal`
shuffles (the shuffle itself is random, so reachability below quantifies
over every permutation of this list). -/
def repDeck : Nat → List Card
  | 0 => []
  | k + 1 => fullDeck ++ repDeck k

/-- The multi-deck used by `Game::deal(_, num_players)`:
`num_players + 1` full decks. -/
def dealDeckList (num_players : Nat) : List Card :=
  repDeck (num_players + 1)

/-- The player-construction loop of `Game::deal`: each player takes 11 hand
cards then 11 foot cards off the top of the deck. -/
def dealPlayers (deck : List Card) : Nat → List PlayerCards × List Card
  | 0 => ([], deck)
  | n + 1 =>
    let hand := deck.take 11
    let d1 := deck.drop 11
    let foot := d1.take 11
    let d2 := d1.drop 11
    let (rest, d3) := dealPlayers d2 n
    ({ hand := hand, foot := some foot, books := [], red_threes := 0,
       play_area := [] } :: rest, d3)

/-- `Game::deal` from the source, with the (randomly shuffled) deck passed
in explicitly: deal 11 + 11 cards to each player, empty discard pile,
`locked = false`. -/
def Game.deal (round : Round) (num_players : Nat) (deck : List Card) : Game :=
  let (ps, d) := dealPlayers deck num_players
  { players := ps, round := round, deck := d, locked := false, discard_pile := [] }

/-- The body of `Game::resolve_red_threes`, with explicit fuel making the
self-recursion structural; `none` means the fuel ran out (the wrapper
passes enough fuel, which is proved below, so this branch models nothing
of the source).  On the `NotEnoughCards` error the hand has already been
drained and `red_threes` incremented, exactly as in the source. -/
def Game.resolveAux : Nat → Game → Nat → Option (Game × Option TurnError)
  | 0, _, _ => none
  | fuel + 1, g, i =>
    let player := g.player i
    let k := player.hand.countP isRedThree
    let hand1 := player.hand.filter fun c => !(isRedThree c)
    if k = 0 then some (g, none)
    else
      let p1 := { player with hand := hand1, red_threes := player.red_threes + k }
      let g1 := { g with players := g.players.set i p1 }
      match deckTake g.deck k with
      | none => some (g1, some TurnError.NotEnoughCards)
      | some (drawn, deck1) =>
        Game.resolveAux fuel
          { g1 with deck := deck1,
                    players := g1.players.set i { p1 with hand := p1.hand ++ drawn } } i

/-- `Game::resolve_red_threes` from the source.  Each pass drains every red
Three from the acting player's hand, banks them in `red_threes`, draws one
replacement per removed card and re-scans.  The fuel `deck.length + 1`
always suffices (each recursive call consumes at least one deck card), so
the `getD` default is never used. -/
def Game.resolve_red_threes (g : Game) (i : Nat) : Game × Option TurnError :=
  (Game.resolveAux (g.deck.length + 1) g i).getD (g, some TurnError.NotEnoughCards)

/-- `Game::draw` from the source: take 2 cards from the deck into the hand. -/
def Game.draw (g : Game) (i : Nat) : Game × Option TurnError :=
  match deckTake g.deck 2 with
  | none => (g, some TurnError.NotEnoughCards)
  | some (cards, deck1) =>
    let p := g.player i
    ({ g with deck := deck1, players := g.players.set i { p with hand := p.hand ++ cards } },
      none)

/-- The `stack.push(top_card)` step of `Game::pickup`: merge the top
discard card into the caller-supplied groups at its own rank. -/
def pushGroup (gs : List (Rank × List Card)) (r : Rank) (c : Card) :
    List (Rank × List Card) :=
  areaSet gs r ((areaGet gs r).getD [] ++ [c])

/-- `Game::pickup` from the source, with both `undo_on_error!` scopes
translated into the state each error path actually leaves behind: the top
card goes back onto the discard pile, and the inner undo pops the *last*
card of the (possibly `play`-mutated) hand. -/
def Game.pickup (g : Game) (i : Nat) (cards_to_play : List (Rank × List Card)) :
    Game × Option TurnError :=
  if g.discard_pile.length < 7 then (g, some TurnError.NotEnoughCards)
  else
    match g.discard_pile with
    | [] => (g, some TurnError.NotEnoughCards)
    | top_card :: discard1 =>
      if top_card.can_be_booked = false then
        (g, some TurnError.CanOnlyPickupBookable)
      else if g.locked = true ∧
          ((g.player i).hand.countP fun x => x.rank == top_card.rank) < 2 then
        (g, some TurnError.DeckIsLockedNeedTwoInHand)
      else
        let p := g.player i
        let p1 := { p with hand := p.hand ++ [top_card] }
        let groups := pushGroup cards_to_play ((top_card.rank).getD Rank.Three) top_card
        match p1.can_play g.round groups with
        | some e => (g, some e)
        | none =>
          match p1.play g.round groups with
          | (p2, some e) =>
            ({ g with players := g.players.set i { p2 with hand := p2.hand.dropLast } },
              some e)
          | (p2, none) =>
            match deckTake discard1 6 with
            | none =>
              ({ g with players := g.players.set i p2, discard_pile := discard1 },
                some TurnError.NotEnoughCards)
            | some (six, discard2) =>
              ({ g with players := g.players.set i { p2 with hand := p2.hand ++ six },
                        discard_pile := discard2 }, none)

/-- The meld phase of `take_turn`: the strategy, modelled at the interface
the specification gives it (a sequence of `play` invocations whose
failures it may ignore), applied to the acting player. -/
def applyPlays (round : Round) : PlayerCards → List (List (Rank × List Card)) → PlayerCards
  | p, [] => p
  | p, gs :: rest => applyPlays round (p.play round gs).1 rest

/-- The second half of `Game::take_turn` (everything after the
draw-or-pickup step): the second red-three resolution, the meld phase, the
discard loop and the foot check.  The discard loop calls a pure strategy
repeatedly on an unchanged player, so it terminates exactly when the first
proposed card is in the hand; `none` models the infinite loop the source
runs into otherwise.  Note the source removes the discarded card from the
hand but never pushes it onto `discard_pile`. -/
def Game.turnTail (g2 : Game) (i : Nat)
    (play_action : Round → PlayerCards → List (List (Rank × List Card)))
    (discard_action : Round → PlayerCards → Card) :
    Option (Game × Except TurnError TurnResult) :=
  match g2.resolve_red_threes i with
  | (g3, some e) => some (g3, Except.error e)
  | (g3, none) =>
    let p1 := applyPlays g3.round (g3.player i) (play_action g3.round (g3.player i))
    let g4 := { g3 with players := g3.players.set i p1 }
    let discard := discard_action g4.round (g4.player i)
    if (g4.player i).hand.contains discard then
      let q := g4.player i
      let g5 := { g4 with players := g4.players.set i { q with hand := q.hand.erase discard } }
      if (g5.player i).hand.isEmpty then
        match (g5.player i).foot with
        | some f =>
          some ({ g5 with players :=
            g5.players.set i { g5.player i with hand := f, foot := none } },
            Except.ok TurnResult.Over)
        | none => some (g5, Except.ok TurnResult.Out)
      else some (g5, Except.ok TurnResult.Over)
    else none

/-- `Game::take_turn` from the source: red-three resolution, then the
draw-or-pickup step (a failed pickup falls back to a draw, applied to
whatever state the failed pickup left), then `Game.turnTail`. -/
def Game.take_turn (g : Game) (i : Nat)
    (draw_action : Round → PlayerCards → DrawAction)
    (play_action : Round → PlayerCards → List (List (Rank × List Card)))
    (discard_action : Round → PlayerCards → Card) :
    Option (Game × Except TurnError TurnResult) :=
  match g.resolve_red_threes i with
  | (g1, some e) => some (g1, Except.error e)
  | (g1, none) =>
    let step2 :=
      match draw_action g1.round (g1.player i) with
      | DrawAction.Pickup to_play =>
        match g1.pickup i to_play with
        | (g2, some _) => g2.draw i
        | (g2, none) => (g2, none)
      | DrawAction.Draw => g1.draw i
    match step2 with
    | (g2, some e) => some (g2, Except.error e)
    | (g2, none) => g2.turnTail i play_action discard_action

/-- `Game::score` from the source. -/
def Game.score (g : Game) : List Int :=
  g.players.map fun player =>
    let base : Int := (player.clean_books : Int) * 500 + (player.dirty_books : Int) * 300 +
      (player.seven_books : Int) * 1500
    let count : Int :=
      (((player.books.map fun b => (b.map Card.points).sum).sum +
        (player.play_area.map fun e => (e.2.map Card.points).sum).sum : Nat) : Int)
    let hand_points : Int :=
      (((player.hand.map Card.points).sum +
        (((player.foot.getD []).map Card.points).sum) : Nat) : Int)
    (player.red_threes : Int) * 100 + base + count - hand_points

/-- The states reachable from a fresh deal by completed, successful turns:
`Game::deal` on any shuffle of the `num_players + 1` decks, then any
sequence of `take_turn` calls (with any strategies, any acting players)
that returned `Ok`. -/
inductive Reachable : Game → Prop where
  | base (round : Round) (num_players : Nat) (deck : List Card) :
      deck.Perm (dealDeckList num_players) →
      Reachable (Game.deal round num_players deck)
  | step (g : Game) (i : Nat)
      (da : Round → PlayerCards → DrawAction)
      (pa : Round → PlayerCards → List (List (Rank × List Card)))
      (ra : Round → PlayerCards → Card)
      (g' : Game) (r : TurnResult) :
      Reachable g → i < g.players.length →
      g.take_turn i da pa ra = some (g', Except.ok r) → Reachable g'

/-- Number of cards a player holds across hand, foot, play area and books. -/
def PlayerCards.cardCount (p : PlayerCards) : Nat :=
  p.hand.length + (p.foot.getD []).length +
    (p.play_area.map fun e => e.2.length).sum + (p.books.map List.length).sum

/-- Total card count across every zone of the game (the quantity the
card-conservation claim says is constant). -/
def Game.totalCards (g : Game) : Nat :=
  g.deck.length + g.discard_pile.length + (g.players.map PlayerCards.cardCount).sum

/-! ## Specification-side definitions

These re-state parts of the specification in its own words, to be compared
with the source-derived definitions above. -/

/-- Sum of the point values of a list of cards. -/
def sumPoints (l : List Card) : Nat := (l.map Card.points).sum

/-- Combined size of a proposed play: existing `playArea[rank]` length plus
the new cards (specification §4.3, rules 3 and 4). -/
def combinedSize (p : PlayerCards) (rank : Rank) (cards : List Card) : Nat :=
  ((areaGet p.play_area rank).getD []).length + cards.length

/-- Combined wild-card count of a proposed play (specification §4.3 rule 5). -/
def combinedWilds (p : PlayerCards) (rank : Rank) (cards : List Card) : Nat :=
  ((areaGet p.play_area rank).getD []).countP Card.is_wild + cards.countP Card.is_wild

/-- Combined non-wild count of a proposed play (specification §4.3 rule 5). -/
def combinedNonWilds (p : PlayerCards) (rank : Rank) (cards : List Card) : Nat :=
  ((areaGet p.play_area rank).getD []).countP (fun c => !c.is_wild) +
    cards.countP (fun c => !c.is_wild)

/-- The five `canPlayRank` rules as the specification words them, evaluated
in the fixed order of §4.3 with the first violated rule's error returned.
Rule 4 is stated here as the source implements it: the *combined* size must
be at least 3, whether or not the `playArea` entry exists (the place where
the claim under review deviates from the code). -/
def canPlayRankSpec (p : PlayerCards) (rank : Rank) (cards : List Card) :
    Option TurnError :=
  if ¬ ∀ c ∈ cards, c.is_wild = true ∨ c.rank = some rank then
    some TurnError.NotAllCardsMatchRank
  else if ¬ ∀ c ∈ cards, cards.count c ≤ p.hand.count c then
    some TurnError.NotAllCardsInHand
  else if 7 < combinedSize p rank cards then
    some TurnError.TooManyCardsInBook
  else if combinedSize p rank cards < 3 then
    some TurnError.TooFewCardsInBook
  else if ¬ combinedWilds p rank cards < combinedNonWilds p rank cards then
    some TurnError.TooManyWildsInBook
  else none

/-- Specification §4.5: a clean book has no wild cards and is not anchored
on Seven (under well-formedness, "anchored on Seven" is "every card is a
Seven"). -/
def specCleanBook (b : List Card) : Bool :=
  (b.all fun c => !c.is_wild) && !(b.all fun c => c.rank == some Rank.Seven)

/-- Specification §4.5: a dirty book contains at least one wild card. -/
def specDirtyBook (b : List Card) : Bool := b.any fun c => c.is_wild

/-- Specification §4.5: a seven book is all non-wild and anchored on Seven. -/
def specSevenBook (b : List Card) : Bool :=
  (b.all fun c => !c.is_wild) && (b.all fun c => c.rank == some Rank.Seven)

/-- The scoring formula as the specification words it:
`500·cleanBooks + 300·dirtyBooks + 1500·sevenBooks + Σ(points of cards in
books and playArea) + 100·redThrees − Σ(points of cards remaining in hand
and foot)`, one signed integer per player. -/
def Game.scoreSpec (g : Game) : List Int :=
  g.players.map fun player =>
    500 * ((player.books.filter specCleanBook).length : Int) +
    300 * ((player.books.filter specDirtyBook).length : Int) +
    1500 * ((player.books.filter specSevenBook).length : Int) +
    (sumPoints (player.books.flatten ++ player.play_area.flatMap (fun e => e.2)) : Int) +
    100 * (player.red_threes : Int) -
    (sumPoints (player.hand ++ player.foot.getD []) : Int)

/-- A well-formed book: non-empty, with all non-wild cards of one rank.
Every book a real game produces has this shape (it is promoted from a
`playArea` entry whose cards passed rule 1 of `canPlayRank`); the source's
classifiers read `book[0]`, which would panic on an empty book, so the
score comparison is stated under this hypothesis. -/
def WFBook (b : List Card) : Prop :=
  b ≠ [] ∧ ∀ c ∈ b, ∀ c' ∈ b,
    c.is_wild = false → c'.is_wild = false → c.rank = c'.rank

/-- All books of all players are well-formed. -/
def WFBooks (g : Game) : Prop := ∀ p ∈ g.players, ∀ b ∈ p.books, WFBook b

/-! ## Invariants -/

/-- Strictly fewer wild cards than non-wild cards. -/
def WildMinor (b : List Card) : Prop :=
  b.countP Card.is_wild < b.countP (fun c => !c.is_wild)

/-- The book/play-area invariant exactly as the claim under review states
it: *every* entry of `playArea` has wild minority and size between 3 and
7, every book has wild minority and exactly 7 cards. -/
def ClaimedInvariant (g : Game) : Prop :=
  ∀ p ∈ g.players,
    (∀ e ∈ p.play_area, WildMinor e.2 ∧ 3 ≤ e.2.length ∧ e.2.length ≤ 7) ∧
    (∀ b ∈ p.books, WildMinor b ∧ b.length = 7)

/-- The invariant the source actually maintains for one player: every
*non-empty* play-area entry has wild minority and size between 3 and 7
(book promotion and the `MustKeepOneCardInHand` rollback both leave empty
entries behind), and every book has wild minority and exactly 7 cards. -/
def PlayerInv (p : PlayerCards) : Prop :=
  (∀ e ∈ p.play_area, e.2 ≠ [] → 3 ≤ e.2.length ∧ e.2.length ≤ 7 ∧ WildMinor e.2) ∧
  (∀ b ∈ p.books, b.length = 7 ∧ WildMinor b)

/-- `PlayerInv` for every player of a list. -/
def PlayersInv (ps : List PlayerCards) : Prop := ∀ p ∈ ps, PlayerInv p

/-- The amended game invariant: `PlayerInv` for every player. -/
def AmendedInvariant (g : Game) : Prop := PlayersInv g.players

/-- What the red-three claim asserts about a successful
`resolve_red_threes`, phrased over the number of banked threes
`t = redThrees' − redThrees`: the hand holds no red Three afterwards, its
size is unchanged, exactly `t` replacement cards were drawn off the top of
the deck, `t` is the number of red Threes among the original hand plus
those drawn, and the final hand is the original hand plus draws with the
red Threes filtered out. -/
def ResolveOkSpec (g : Game) (i : Nat) (g' : Game) : Prop :=
  let p := g.player i
  let p' := g'.player i
  let t := p'.red_threes - p.red_threes
  p'.hand.countP isRedThree = 0 ∧
  p'.hand.length = p.hand.length ∧
  p.red_threes ≤ p'.red_threes ∧
  g'.deck = g.deck.drop t ∧
  t = (p.hand ++ g.deck.take t).countP isRedThree ∧
  p'.hand = (p.hand ++ g.deck.take t).filter fun c => !(isRedThree c)

instance (b : List Card) : Decidable (WildMinor b) := by
  unfold WildMinor; infer_instance

instance (g : Game) : Decidable (ClaimedInvariant g) := by
  unfold ClaimedInvariant; infer_instance

instance (p : PlayerCards) : Decidable (PlayerInv p) := by
  unfold PlayerInv; infer_instance

instance (ps : List PlayerCards) : Decidable (PlayersInv ps) := by
  unfold PlayersInv; infer_instance

instance (g : Game) : Decidable (AmendedInvariant g) := by
  unfold AmendedInvariant; infer_instance

instance (b : List Card) : Decidable (WFBook b) := by
  unfold WFBook; infer_instance

instance (g : Game) : Decidable (WFBooks g) := by
  unfold WFBooks; infer_instance

/-! ## Concrete states used by counterexamples and witnesses -/

/-- A shuffle of the two-deck game (`num_players = 1`) with the four red
Threes moved to the bottom, so the first turn involves no red-three
resolution. -/
def exDeck : List Card :=
  (dealDeckList 1).filter (fun c => !(isRedThree c)) ++
  (dealDeckList 1).filter (fun c => isRedThree c)

/-- A freshly dealt one-player game on `exDeck`. -/
def exGame : Game := Game.deal Round.One 1 exDeck

/-- A draw strategy that always draws from the deck. -/
def exDraw : Round → PlayerCards → DrawAction := fun _ _ => DrawAction.Draw

/-- A meld strategy that plays nothing. -/
def exPlay : Round → PlayerCards → List (List (Rank × List Card)) := fun _ _ => []

/-- A discard strategy proposing the first hand card (always present). -/
def exDiscard : Round → PlayerCards → Card := fun _ p => p.hand.headD Card.Joker

/-- One completed turn of `exGame`. -/
def exResult : Option (Game × Except TurnError TurnResult) :=
  Game.take_turn exGame 0 exDraw exPlay exDiscard

/-- Extract the game of a turn result. -/
def turnGameOf (o : Option (Game × Except TurnError TurnResult)) : Game :=
  (o.map Prod.fst).getD default

/-- The state after the turn of `exResult`. -/
def exGameAfter : Game := turnGameOf exResult

/-- The first 24 cards of a stacked two-deck shuffle: player 0's hand is
seven Aces and four Tens, the foot is eight Kings and three Queens, and
the first two draws are Queens. -/
def front5 : List Card :=
  [Card.Regular Rank.Ace Suit.Diamond, Card.Regular Rank.Ace Suit.Club,
   Card.Regular Rank.Ace Suit.Heart, Card.Regular Rank.Ace Suit.Spade,
   Card.Regular Rank.Ace Suit.Diamond, Card.Regular Rank.Ace Suit.Club,
   Card.Regular Rank.Ace Suit.Heart,
   Card.Regular Rank.Ten Suit.Diamond, Card.Regular Rank.Ten Suit.Club,
   Card.Regular Rank.Ten Suit.Heart, Card.Regular Rank.Ten Suit.Spade,
   Card.Regular Rank.King Suit.Diamond, Card.Regular Rank.King Suit.Club,
   Card.Regular Rank.King Suit.Heart, Card.Regular Rank.King Suit.Spade,
   Card.Regular Rank.King Suit.Diamond, Card.Regular Rank.King Suit.Club,
   Card.Regular Rank.King Suit.Heart, Card.Regular Rank.King Suit.Spade,
   Card.Regular Rank.Queen Suit.Diamond, Card.Regular Rank.Queen Suit.Club,
   Card.Regular Rank.Queen Suit.Heart,
   Card.Regular Rank.Queen Suit.Spade, Card.Regular Rank.Queen Suit.Diamond]

/-- The stacked shuffle: `front5` first, the rest of the two decks after. -/
def exDeck5 : List Card :=
  front5 ++ (front5.foldl (fun acc c => acc.erase c) (dealDeckList 1))

/-- A freshly dealt one-player game on the stacked shuffle. -/
def exGame5 : Game := Game.deal Round.One 1 exDeck5

/-- A meld strategy that plays the seven Aces as one group (worth 140
points, above round One's threshold of 90). -/
def exPlay5 : Round → PlayerCards → List (List (Rank × List Card)) := fun _ _ =>
  [[(Rank.Ace, [Card.Regular Rank.Ace Suit.Diamond, Card.Regular Rank.Ace Suit.Club,
     Card.Regular Rank.Ace Suit.Heart, Card.Regular Rank.Ace Suit.Spade,
     Card.Regular Rank.Ace Suit.Diamond, Card.Regular Rank.Ace Suit.Club,
     Card.Regular Rank.Ace Suit.Heart])]]

/-- One completed turn of `exGame5`: the Ace book is completed and
promoted, leaving the empty entry `playArea[Ace] = some []`. -/
def exResult5 : Option (Game × Except TurnError TurnResult) :=
  Game.take_turn exGame5 0 exDraw exPlay5 exDiscard

/-- The state after the turn of `exResult5`. -/
def exGame5After : Game := turnGameOf exResult5

/-- A player about to attempt a two-group play that shares one Joker
between the groups; each group passes validation alone, so `can_play`
accepts, but only one Joker is in hand. -/
def c3p : PlayerCards :=
  { hand := [Card.Regular Rank.Four Suit.Diamond, Card.Regular Rank.Four Suit.Club,
             Card.Regular Rank.Five Suit.Diamond, Card.Regular Rank.Five Suit.Club,
             Card.Joker, Card.Regular Rank.King Suit.Diamond],
    foot := some [Card.Regular Rank.Nine Suit.Diamond],
    books := [], red_threes := 0,
    play_area := [(Rank.Six, [Card.Regular Rank.Six Suit.Diamond,
      Card.Regular Rank.Six Suit.Club, Card.Regular Rank.Six Suit.Heart])] }

/-- Two groups that each validate individually but jointly need two Jokers. -/
def c3groups : List (Rank × List Card) :=
  [(Rank.Four, [Card.Regular Rank.Four Suit.Diamond, Card.Regular Rank.Four Suit.Club,
     Card.Joker]),
   (Rank.Five, [Card.Regular Rank.Five Suit.Diamond, Card.Regular Rank.Five Suit.Club,
     Card.Joker])]

/-- A clean book of Fives and a dirty book of Sixes: enough to `can_go_out`. -/
def c4books : List (List Card) :=
  [[Card.Regular Rank.Five Suit.Diamond, Card.Regular Rank.Five Suit.Club,
    Card.Regular Rank.Five Suit.Heart, Card.Regular Rank.Five Suit.Spade,
    Card.Regular Rank.Five Suit.Diamond, Card.Regular Rank.Five Suit.Club,
    Card.Regular Rank.Five Suit.Heart],
   [Card.Regular Rank.Six Suit.Diamond, Card.Regular Rank.Six Suit.Club,
    Card.Regular Rank.Six Suit.Heart, Card.Regular Rank.Six Suit.Spade,
    Card.Regular Rank.Two Suit.Diamond, Card.Regular Rank.Six Suit.Diamond,
    Card.Regular Rank.Six Suit.Club]]

/-- A player who can already go out (one clean, one dirty book), has no
foot, and holds exactly the three Fours about to be played. -/
def c4p : PlayerCards :=
  { hand := [Card.Regular Rank.Four Suit.Diamond, Card.Regular Rank.Four Suit.Club,
             Card.Regular Rank.Four Suit.Heart],
    foot := none, books := c4books, red_threes := 0, play_area := [] }

/-- The three Fours. -/
def c4cards : List Card :=
  [Card.Regular Rank.Four Suit.Diamond, Card.Regular Rank.Four Suit.Club,
   Card.Regular Rank.Four Suit.Heart]

/-- Like `c4p` but with one extra King, so the play leaves one card. -/
def c4q : PlayerCards :=
  { c4p with hand := c4p.hand ++ [Card.Regular Rank.King Suit.Diamond] }

/-- A player whose `playArea[Four]` entry exists but is empty (the state a
completed Four book leaves behind), holding two Fours. -/
def c7p : PlayerCards :=
  { hand := [Card.Regular Rank.Four Suit.Diamond, Card.Regular Rank.Four Suit.Club],
    foot := none, books := [], red_threes := 0, play_area := [(Rank.Four, [])] }

/-- The two Fours proposed onto the existing (empty) entry. -/
def c7cards : List Card :=
  [Card.Regular Rank.Four Suit.Diamond, Card.Regular Rank.Four Suit.Club]

/-- A player holding one red Three, for the red-three witness. -/
def p9 : PlayerCards :=
  { hand := [Card.Regular Rank.Three Suit.Diamond, Card.Regular Rank.Four Suit.Diamond],
    foot := none, books := [], red_threes := 0, play_area := [] }

/-- A game whose deck's first replacement card is itself a red Three, so
resolution recurses twice. -/
def cg9 : Game :=
  { players := [p9], round := Round.One,
    deck := [Card.Regular Rank.Three Suit.Heart, Card.Regular Rank.Five Suit.Diamond,
             Card.Regular Rank.Six Suit.Diamond],
    locked := false, discard_pile := [] }

/-- The state after resolving `cg9`'s red threes. -/
def cg9After : Game := (cg9.resolve_red_threes 0).1

/-- A never-melded player holding three Fours, for the meld-threshold
witness. -/
def cp6 : PlayerCards :=
  { hand := [Card.Regular Rank.Four Suit.Diamond, Card.Regular Rank.Four Suit.Club,
             Card.Regular Rank.Four Suit.Heart, Card.Regular Rank.King Suit.Diamond],
    foot := some [], books := [], red_threes := 0, play_area := [] }

/-- Three Fours, worth 15 points: far below round One's 90. -/
def g6 : List (Rank × List Card) :=
  [(Rank.Four, [Card.Regular Rank.Four Suit.Diamond, Card.Regular Rank.Four Suit.Club,
    Card.Regular Rank.Four Suit.Heart])]

/-- A player with a clean book, a dirty book and a seven book plus cards in
every zone, for the scoring witness. -/
def p8 : PlayerCards :=
  { hand := [Card.Regular Rank.King Suit.Diamond, Card.Joker],
    foot := some [Card.Regular Rank.Ace Suit.Diamond],
    books := c4books ++
      [[Card.Regular Rank.Seven Suit.Diamond, Card.Regular Rank.Seven Suit.Club,
        Card.Regular Rank.Seven Suit.Heart, Card.Regular Rank.Seven Suit.Spade,
        Card.Regular Rank.Seven Suit.Diamond, Card.Regular Rank.Seven Suit.Club,
        Card.Regular Rank.Seven Suit.Heart]],
    red_threes := 2,
    play_area := [(Rank.Four, [Card.Regular Rank.Four Suit.Diamond,
      Card.Regular Rank.Four Suit.Club, Card.Regular Rank.Four Suit.Heart])] }

/-- A one-player game for the scoring witness. -/
def cg8 : Game :=
  { players := [p8], round := Round.Two, deck := [], locked := false,
    discard_pile := [Card.Regular Rank.Nine Suit.Diamond] }

/-- A player for the empty-deck turn of the lock witness. -/
def p10 : PlayerCards :=
  { hand := [Card.Regular Rank.Four Suit.Diamond],
    foot := none, books := [], red_threes := 0, play_area := [] }

/-- A game with an empty deck: its turn fails with `NotEnoughCards`. -/
def g10 : Game :=
  { players := [p10], round := Round.One, deck := [], locked := false,
    discard_pile := [] }

/-! ## Helper lemmas: erase folds and multisets -/

theorem foldl_erase_count (l : List Card) :
    ∀ (init : List Card) (v : Card),
      (l.foldl (fun acc c => acc.erase c) init).count v = init.count v - l.count v := by
  induction l with
  | nil => intro init v; simp
  | cons c l ih =>
    intro init v
    simp only [List.foldl_cons]
    rw [ih, List.count_erase, List.count_cons]
    rcases eq_or_ne c v with h | h
    · simp [h, beq_iff_eq]
      omega
    · simp [h, beq_iff_eq, Ne.symm h]

theorem cardsLeftAfter_count (hand cards : List Card) (v : Card) :
    (cardsLeftAfter hand cards).count v = cards.count v - hand.count v :=
  foldl_erase_count hand cards v

theorem removeFromHand_count (hand cards : List Card) (v : Card) :
    (removeFromHand hand cards).count v = hand.count v - cards.count v :=
  foldl_erase_count cards hand v

theorem list_eq_nil_iff_count (l : List Card) : l = [] ↔ ∀ v, l.count v = 0 := by
  constructor
  · rintro rfl v; simp
  · intro h
    rw [List.eq_nil_iff_forall_not_mem]
    intro a ha
    have h1 := List.count_pos_iff.mpr ha
    have h2 := h a
    omega

theorem cardsLeftAfter_isEmpty_iff (hand cards : List Card) :
    (cardsLeftAfter hand cards).isEmpty = true ↔
      (cards : Multiset Card) ≤ (hand : Multiset Card) := by
  rw [List.isEmpty_iff, list_eq_nil_iff_count, Multiset.le_iff_count]
  constructor
  · intro h a
    have := h a
    rw [cardsLeftAfter_count] at this
    simp only [Multiset.coe_count]
    omega
  · intro h v
    have := h v
    simp only [Multiset.coe_count] at this
    rw [cardsLeftAfter_count]
    omega

theorem removeFromHand_coe (hand cards : List Card) :
    (removeFromHand hand cards : Multiset Card) =
      (hand : Multiset Card) - (cards : Multiset Card) := by
  rw [Multiset.ext]
  intro a
  rw [Multiset.count_sub]
  simp only [Multiset.coe_count]
  exact removeFromHand_count hand cards a

theorem removeFromHand_length (hand cards : List Card)
    (h : (cards : Multiset Card) ≤ (hand : Multiset Card)) :
    (removeFromHand hand cards).length = hand.length - cards.length := by
  have h1 : Multiset.card (removeFromHand hand cards : Multiset Card) =
      Multiset.card (hand : Multiset Card) - Multiset.card (cards : Multiset Card) := by
    rw [removeFromHand_coe, Multiset.card_sub h]
  simpa using h1

theorem removeFromHand_append_coe (hand cards : List Card)
    (h : (cards : Multiset Card) ≤ (hand : Multiset Card)) :
    ((removeFromHand hand cards ++ cards : List Card) : Multiset Card) =
      (hand : Multiset Card) := by
  have : ((removeFromHand hand cards ++ cards : List Card) : Multiset Card) =
      (removeFromHand hand cards : Multiset Card) + (cards : Multiset Card) := by
    simp
  rw [this, removeFromHand_coe, tsub_add_cancel_of_le h]

theorem cards_length_le_of_le {hand cards : List Card}
    (h : (cards : Multiset Card) ≤ (hand : Multiset Card)) :
    cards.length ≤ hand.length := by
  have := Multiset.card_le_card h
  simpa using this

theorem countP_add_countP_not (p : Card → Bool) (l : List Card) :
    l.countP p + l.countP (fun c => !p c) = l.length := by
  induction l with
  | nil => simp
  | cons c l ih =>
    rcases hc : p c with _ | _ <;>
      simp [List.countP_cons, hc, ← ih] <;> omega

/-! ## Helper lemmas: the association-list play area -/

theorem mem_areaSet {r : Rank} {v : List Card} :
    ∀ (pa : List (Rank × List Card)) (e : Rank × List Card),
      e ∈ areaSet pa r v → e = (r, v) ∨ e ∈ pa := by
  intro pa
  induction pa with
  | nil =>
    intro e h
    simp only [areaSet, List.mem_singleton] at h
    exact Or.inl h
  | cons kv rest ih =>
    obtain ⟨k, w⟩ := kv
    intro e h
    simp only [areaSet] at h
    by_cases hk : k = r
    · rw [if_pos hk, List.mem_cons] at h
      rcases h with h1 | h1
      · exact Or.inl h1
      · exact Or.inr (List.mem_cons_of_mem _ h1)
    · rw [if_neg hk, List.mem_cons] at h
      rcases h with h1 | h1
      · exact Or.inr (h1 ▸ List.mem_cons_self _ _)
      · rcases ih e h1 with h' | h'
        · exact Or.inl h'
        · exact Or.inr (List.mem_cons_of_mem _ h')

theorem mem_areaEnsure {pa : List (Rank × List Card)} {r : Rank}
    {e : Rank × List Card} (h : e ∈ areaEnsure pa r) : e = (r, []) ∨ e ∈ pa := by
  unfold areaEnsure at h
  split at h
  · exact Or.inr h
  · rcases List.mem_append.mp h with h' | h'
    · exact Or.inr h'
    · exact Or.inl (List.mem_singleton.mp h')

/-! ## Helper lemmas: `can_play_rank` -/

theorem can_play_rank_facts {p : PlayerCards} {rank : Rank} {cards : List Card}
    (h : p.can_play_rank rank cards = none) :
    (cards : Multiset Card) ≤ (p.hand : Multiset Card) ∧
    3 ≤ combinedSize p rank cards ∧ combinedSize p rank cards ≤ 7 ∧
    combinedWilds p rank cards <
      combinedSize p rank cards - combinedWilds p rank cards := by
  unfold PlayerCards.can_play_rank at h
  split at h
  · exact absurd h (by simp)
  · split at h
    · exact absurd h (by simp)
    · next h2 =>
      simp only [combinedSize, combinedWilds]
      dsimp only at h
      split at h
      · exact absurd h (by simp)
      · split at h
        · exact absurd h (by simp)
        · split at h
          · exact absurd h (by simp)
          · next h3 h4 h5 =>
            refine ⟨?_, by omega, by omega, by omega⟩
            rw [← cardsLeftAfter_isEmpty_iff p.hand cards]
            simpa using h2

theorem can_play_rank_wild_minor {p : PlayerCards} {rank : Rank} {cards : List Card}
    (h : p.can_play_rank rank cards = none) :
    WildMinor (((areaGet p.play_area rank).getD []) ++ cards) := by
  obtain ⟨-, -, -, h4⟩ := can_play_rank_facts h
  unfold WildMinor
  rw [List.countP_append, List.countP_append]
  have e1 := countP_add_countP_not Card.is_wild ((areaGet p.play_area rank).getD [])
  have e2 := countP_add_countP_not Card.is_wild cards
  simp only [combinedSize, combinedWilds] at h4
  omega

theorem can_play_rank_size {p : PlayerCards} {rank : Rank} {cards : List Card}
    (h : p.can_play_rank rank cards = none) :
    3 ≤ (((areaGet p.play_area rank).getD []) ++ cards).length ∧
      (((areaGet p.play_area rank).getD []) ++ cards).length ≤ 7 := by
  obtain ⟨-, h2, h3, -⟩ := can_play_rank_facts h
  simp only [combinedSize] at h2 h3
  rw [List.length_append]
  omega

theorem can_play_rank_ne_meld (p : PlayerCards) (rank : Rank) (cards : List Card) :
    p.can_play_rank rank cards ≠ some TurnError.NotEnoughMeld := by
  unfold PlayerCards.can_play_rank
  split
  · simp
  · split
    · simp
    · dsimp only
      split
      · simp
      · split
        · simp
        · split <;> simp

theorem firstRankErr_ne_meld (p : PlayerCards) :
    ∀ l : List (Rank × List Card), firstRankErr p l ≠ some TurnError.NotEnoughMeld := by
  intro l
  induction l with
  | nil => simp [firstRankErr]
  | cons e rest ih =>
    obtain ⟨r, cs⟩ := e
    unfold firstRankErr
    split
    · next heq =>
      intro hcontra
      rw [hcontra] at heq
      exact can_play_rank_ne_meld p r cs heq
    · exact ih

/-! ## Helper lemmas: the wild-minority invariant is preserved -/

theorem playerInv_same_area_books {q p : PlayerCards} (hpa : q.play_area = p.play_area)
    (hb : q.books = p.books) (h : PlayerInv p) : PlayerInv q := by
  obtain ⟨h1, h2⟩ := h
  constructor
  · rw [hpa]; exact h1
  · rw [hb]; exact h2

theorem playerInv_areaSet_entry {p : PlayerCards} {rank : Rank} {cards : List Card}
    (h : PlayerInv p) (hcr : p.can_play_rank rank cards = none)
    {q : PlayerCards} (hq : q.play_area =
      areaSet (areaEnsure p.play_area rank) rank
        (((areaGet p.play_area rank).getD []) ++ cards))
    (hb : q.books = p.books) : PlayerInv q := by
  constructor
  · intro e he hne
    rw [hq] at he
    rcases mem_areaSet _ _ he with h1 | h1
    · obtain ⟨hs1, hs2⟩ := can_play_rank_size hcr
      have hw := can_play_rank_wild_minor hcr
      rw [h1]
      exact ⟨hs1, hs2, hw⟩
    · rcases mem_areaEnsure h1 with h2 | h2
      · exact absurd (by rw [h2]) hne
      · exact h.1 e h2 hne
  · rw [hb]; exact h.2

theorem playerInv_areaSet_promote {p : PlayerCards} {rank : Rank} {cards : List Card}
    (h : PlayerInv p) (hcr : p.can_play_rank rank cards = none)
    (hlen : (((areaGet p.play_area rank).getD []) ++ cards).length = 7)
    {q : PlayerCards}
    (hq : q.play_area = areaSet (areaEnsure p.play_area rank) rank [])
    (hbk : q.books = p.books ++ [((areaGet p.play_area rank).getD []) ++ cards]) :
    PlayerInv q := by
  constructor
  · intro e he hne
    rw [hq] at he
    rcases mem_areaSet _ _ he with h1 | h1
    · exact absurd (by rw [h1]) hne
    · rcases mem_areaEnsure h1 with h2 | h2
      · exact absurd (by rw [h2]) hne
      · exact h.1 e h2 hne
  · intro b hb2
    rw [hbk] at hb2
    rcases List.mem_append.mp hb2 with h1 | h1
    · exact h.2 b h1
    · have hb3 : b = ((areaGet p.play_area rank).getD []) ++ cards :=
        List.mem_singleton.mp h1
      subst hb3
      exact ⟨hlen, can_play_rank_wild_minor hcr⟩

theorem playerInv_areaEnsure {p : PlayerCards} {rank : Rank}
    (h : PlayerInv p) {q : PlayerCards}
    (hq : q.play_area = areaEnsure p.play_area rank)
    (hb : q.books = p.books) : PlayerInv q := by
  constructor
  · intro e he hne
    rw [hq] at he
    rcases mem_areaEnsure he with h2 | h2
    · exact absurd (by rw [h2]) hne
    · exact h.1 e h2 hne
  · rw [hb]; exact h.2

theorem play_rank_inv (p : PlayerCards) (rank : Rank) (cards : List Card)
    (h : PlayerInv p) : PlayerInv (p.play_rank rank cards).1 := by
  unfold PlayerCards.play_rank
  cases hcr : p.can_play_rank rank cards with
  | some e => exact h
  | none =>
    dsimp only
    split
    · cases p.foot with
      | some f =>
        dsimp only
        split
        · next hlen => exact playerInv_areaSet_promote h hcr hlen rfl rfl
        · exact playerInv_areaSet_entry h hcr rfl rfl
      | none =>
        dsimp only
        split
        · exact playerInv_areaEnsure h rfl rfl
        · split
          · next hlen => exact playerInv_areaSet_promote h hcr hlen rfl rfl
          · exact playerInv_areaSet_entry h hcr rfl rfl
    · split
      · next hlen => exact playerInv_areaSet_promote h hcr hlen rfl rfl
      · exact playerInv_areaSet_entry h hcr rfl rfl

theorem playGroups_inv (l : List (Rank × List Card)) :
    ∀ (p : PlayerCards), PlayerInv p → PlayerInv (playGroups p l).1 := by
  induction l with
  | nil => intro p h; exact h
  | cons e rest ih =>
    obtain ⟨r, cs⟩ := e
    intro p h
    unfold playGroups
    cases hpr : p.play_rank r cs with
    | mk p1 err =>
      have h1 : PlayerInv p1 := by
        have := play_rank_inv p r cs h
        rw [hpr] at this
        exact this
      cases err with
      | some e => exact h1
      | none => exact ih p1 h1

theorem play_inv (p : PlayerCards) (round : Round) (cards : List (Rank × List Card))
    (h : PlayerInv p) : PlayerInv (p.play round cards).1 := by
  unfold PlayerCards.play
  cases p.can_play round cards with
  | some e => exact h
  | none => exact playGroups_inv cards p h

theorem applyPlays_inv (round : Round) (l : List (List (Rank × List Card))) :
    ∀ (p : PlayerCards), PlayerInv p → PlayerInv (applyPlays round p l) := by
  induction l with
  | nil => intro p h; exact h
  | cons gs rest ih =>
    intro p h
    unfold applyPlays
    exact ih _ (play_inv p round gs h)

/-! ## Helper lemmas: players list updates -/

theorem playerInv_default : PlayerInv (default : PlayerCards) := by
  constructor
  · intro e he
    simp [default] at he
  · intro b hb
    simp [default] at hb

theorem playersInv_player {ps : List PlayerCards} (h : PlayersInv ps) (i : Nat) :
    PlayerInv (ps.getD i default) := by
  by_cases hi : i < ps.length
  · rw [List.getD_eq_getElem?_getD, List.getElem?_eq_getElem hi]
    exact h _ (List.getElem_mem hi)
  · rw [List.getD_eq_getElem?_getD, List.getElem?_eq_none (Nat.le_of_not_lt hi)]
    exact playerInv_default

theorem playersInv_set {ps : List PlayerCards} (h : PlayersInv ps) {p' : PlayerCards}
    (hp : PlayerInv p') (i : Nat) : PlayersInv (ps.set i p') := by
  intro q hq
  rcases List.mem_or_eq_of_mem_set hq with h1 | h1
  · exact h q h1
  · exact h1 ▸ hp

theorem game_player_inv {g : Game} (h : AmendedInvariant g) (i : Nat) :
    PlayerInv (g.player i) :=
  playersInv_player h i

theorem player_set_self {ps : List PlayerCards} {i : Nat} (hi : i < ps.length)
    (p' : PlayerCards) : (ps.set i p').getD i default = p' := by
  rw [List.getD_eq_getElem?_getD, List.getElem?_set_self (by simpa using hi)]
  rfl

/-! ## Helper lemmas: `resolve_red_threes` -/

theorem resolveAux_inv : ∀ (fuel : Nat) (g : Game) (i : Nat) (g' : Game)
    (e : Option TurnError), Game.resolveAux fuel g i = some (g', e) →
    PlayersInv g.players → PlayersInv g'.players := by
  intro fuel
  induction fuel with
  | zero => intro g i g' e h; simp [Game.resolveAux] at h
  | succ fuel ih =>
    intro g i g' e h hinv
    unfold Game.resolveAux at h
    dsimp only at h
    split at h
    · injection h with h'
      injection h' with h1 h2
      subst h1
      exact hinv
    · have hpinv : PlayerInv (g.player i) := playersInv_player hinv i
      have hp1 : PlayerInv { g.player i with
          hand := ((g.player i).hand.filter (fun c => !(isRedThree c))),
          red_threes := ((g.player i).red_threes +
            (g.player i).hand.countP isRedThree) } :=
        playerInv_same_area_books rfl rfl hpinv
      have hinv1 : PlayersInv (g.players.set i
          { g.player i with
            hand := ((g.player i).hand.filter (fun c => !(isRedThree c))),
            red_threes := ((g.player i).red_threes +
              (g.player i).hand.countP isRedThree) }) :=
        playersInv_set hinv hp1 i
      split at h
      · injection h with h'
        injection h' with h1 h2
        subst h1
        exact hinv1
      · have hrec := ih _ i g' e h
        apply hrec
        intro q hq
        rcases List.mem_or_eq_of_mem_set hq with h1 | h1
        · exact hinv1 q h1
        · subst h1
          exact playerInv_same_area_books rfl rfl hpinv

theorem resolveAux_locked : ∀ (fuel : Nat) (g : Game) (i : Nat) (g' : Game)
    (e : Option TurnError), Game.resolveAux fuel g i = some (g', e) →
    g'.locked = g.locked := by
  intro fuel
  induction fuel with
  | zero => intro g i g' e h; simp [Game.resolveAux] at h
  | succ fuel ih =>
    intro g i g' e h
    unfold Game.resolveAux at h
    dsimp only at h
    split at h
    · injection h with h'
      injection h' with h1 h2
      subst h1
      rfl
    · split at h
      · injection h with h'
        injection h' with h1 h2
        subst h1
        rfl
      · have hrec := ih _ i g' e h
        exact hrec

theorem resolveAux_error : ∀ (fuel : Nat) (g : Game) (i : Nat) (g' : Game)
    (e : TurnError), Game.resolveAux fuel g i = some (g', some e) →
    e = TurnError.NotEnoughCards := by
  intro fuel
  induction fuel with
  | zero => intro g i g' e h; simp [Game.resolveAux] at h
  | succ fuel ih =>
    intro g i g' e h
    unfold Game.resolveAux at h
    dsimp only at h
    split at h
    · injection h with h'
      injection h' with h1 h2
      exact absurd h2 (by simp)
    · split at h
      · injection h with h'
        injection h' with h1 h2
        injection h2 with h3
        exact h3.symm
      · exact ih _ i g' e h


theorem resolve_inv (g : Game) (i : Nat) (hinv : PlayersInv g.players) :
    PlayersInv (g.resolve_red_threes i).1.players := by
  unfold Game.resolve_red_threes
  cases hres : Game.resolveAux (g.deck.length + 1) g i with
  | none => exact hinv
  | some p =>
    obtain ⟨g1, e⟩ := p
    exact resolveAux_inv _ g i g1 e hres hinv

theorem resolve_locked (g : Game) (i : Nat) :
    (g.resolve_red_threes i).1.locked = g.locked := by
  unfold Game.resolve_red_threes
  cases hres : Game.resolveAux (g.deck.length + 1) g i with
  | none => rfl
  | some p =>
    obtain ⟨g1, e⟩ := p
    exact resolveAux_locked _ g i g1 e hres

theorem resolve_error (g : Game) (i : Nat) (e : TurnError)
    (h : (g.resolve_red_threes i).2 = some e) : e = TurnError.NotEnoughCards := by
  unfold Game.resolve_red_threes at h
  cases hres : Game.resolveAux (g.deck.length + 1) g i with
  | none =>
    rw [hres] at h
    simp only [Option.getD_none] at h
    injection h with h'
    exact h'.symm
  | some p =>
    obtain ⟨g1, e1⟩ := p
    rw [hres] at h
    simp only [Option.getD_some] at h
    cases e1 with
    | none => exact absurd h (by simp)
    | some e2 =>
      injection h with h'
      subst h'
      exact resolveAux_error _ g i g1 e2 hres

/-! ## Helper lemmas: `draw` and `pickup` -/

theorem draw_inv (g : Game) (i : Nat) (hinv : PlayersInv g.players) :
    PlayersInv (g.draw i).1.players := by
  unfold Game.draw
  cases hdt : deckTake g.deck 2 with
  | none => exact hinv
  | some p =>
    obtain ⟨cards, deck1⟩ := p
    dsimp only
    have hp : PlayerInv { g.player i with hand := ((g.player i).hand ++ cards) } :=
      playerInv_same_area_books rfl rfl (playersInv_player hinv i)
    exact playersInv_set hinv hp i

theorem draw_locked (g : Game) (i : Nat) : (g.draw i).1.locked = g.locked := by
  unfold Game.draw
  cases hdt : deckTake g.deck 2 with
  | none => rfl
  | some p => obtain ⟨cards, deck1⟩ := p; rfl

theorem draw_error (g : Game) (i : Nat) (e : TurnError)
    (h : (g.draw i).2 = some e) : e = TurnError.NotEnoughCards := by
  unfold Game.draw at h
  cases hdt : deckTake g.deck 2 with
  | none =>
    rw [hdt] at h
    injection h with h'
    exact h'.symm
  | some p =>
    obtain ⟨cards, deck1⟩ := p
    rw [hdt] at h
    exact absurd h (by simp)

theorem pickup_inv (g : Game) (i : Nat) (tp : List (Rank × List Card))
    (hinv : PlayersInv g.players) : PlayersInv (g.pickup i tp).1.players := by
  unfold Game.pickup
  split
  · exact hinv
  · split
    · exact hinv
    · next top_card discard1 heq =>
      split
      · exact hinv
      · split
        · exact hinv
        · dsimp only
          have h0 : PlayerInv { g.player i with
              hand := ((g.player i).hand ++ [top_card]) } :=
            playerInv_same_area_books rfl rfl (playersInv_player hinv i)
          split
          · exact hinv
          · next hcp =>
            cases hplay : PlayerCards.play { g.player i with
                hand := ((g.player i).hand ++ [top_card]) } g.round
                (pushGroup tp ((top_card.rank).getD Rank.Three) top_card) with
            | mk p2 e2 =>
              have hp2 : PlayerInv p2 := by
                have h1 := play_inv _ g.round
                  (pushGroup tp ((top_card.rank).getD Rank.Three) top_card) h0
                rw [hplay] at h1
                exact h1
              cases e2 with
              | some e3 =>
                dsimp only
                have hpd : PlayerInv { p2 with hand := p2.hand.dropLast } :=
                  playerInv_same_area_books rfl rfl hp2
                exact playersInv_set hinv hpd i
              | none =>
                dsimp only
                cases htk : deckTake discard1 6 with
                | none =>
                  dsimp only
                  exact playersInv_set hinv hp2 i
                | some q =>
                  obtain ⟨six, discard2⟩ := q
                  dsimp only
                  have hps : PlayerInv { p2 with hand := (p2.hand ++ six) } :=
                    playerInv_same_area_books rfl rfl hp2
                  exact playersInv_set hinv hps i

theorem pickup_locked (g : Game) (i : Nat) (tp : List (Rank × List Card)) :
    (g.pickup i tp).1.locked = g.locked := by
  unfold Game.pickup
  split
  · rfl
  · split
    · rfl
    · next top_card discard1 heq =>
      split
      · rfl
      · split
        · rfl
        · dsimp only
          split
          · rfl
          · cases hplay : PlayerCards.play { g.player i with
                hand := ((g.player i).hand ++ [top_card]) } g.round
                (pushGroup tp ((top_card.rank).getD Rank.Three) top_card) with
            | mk p2 e2 =>
              cases e2 with
              | some e3 => rfl
              | none =>
                dsimp only
                cases htk : deckTake discard1 6 with
                | none => rfl
                | some q => obtain ⟨six, discard2⟩ := q; rfl

/-! ## Helper lemmas: `take_turn` -/

theorem turnTail_facts (g2 : Game) (i : Nat)
    (pa : Round → PlayerCards → List (List (Rank × List Card)))
    (ra : Round → PlayerCards → Card) (g' : Game)
    (res : Except TurnError TurnResult)
    (h : g2.turnTail i pa ra = some (g', res)) :
    g'.locked = g2.locked ∧
    (PlayersInv g2.players → PlayersInv g'.players) ∧
    (∀ e, res = Except.error e → e = TurnError.NotEnoughCards) := by
  unfold Game.turnTail at h
  cases hres : g2.resolve_red_threes i with
  | mk g3 e1 =>
    rw [hres] at h
    have hl3 : g3.locked = g2.locked := by
      have hx := resolve_locked g2 i
      rw [hres] at hx
      exact hx
    have hi3 : PlayersInv g2.players → PlayersInv g3.players := by
      intro hin
      have hx := resolve_inv g2 i hin
      rw [hres] at hx
      exact hx
    cases e1 with
    | some e =>
      injection h with h'
      injection h' with hg hr
      subst hg
      refine ⟨hl3, hi3, ?_⟩
      intro e' he'
      rw [← hr] at he'
      injection he' with he2
      subst he2
      have hx : (g2.resolve_red_threes i).2 = some e := by rw [hres]
      exact resolve_error g2 i e hx
    | none =>
      dsimp only at h
      have hinv4 : PlayersInv g2.players →
          PlayersInv (g3.players.set i (applyPlays g3.round (g3.player i)
            (pa g3.round (g3.player i)))) := by
        intro hin
        exact playersInv_set (hi3 hin)
          (applyPlays_inv g3.round _ _ (playersInv_player (hi3 hin) i)) i
      split at h
      · split at h
        · split at h
          · next f hf =>
            injection h with h'
            injection h' with hg hr
            subst hg
            refine ⟨hl3, ?_, ?_⟩
            · intro hin
              have hin5 : PlayersInv ((g3.players.set i (applyPlays g3.round
                  (g3.player i) (pa g3.round (g3.player i)))).set i
                  { ({ g3 with players := g3.players.set i (applyPlays g3.round
                      (g3.player i) (pa g3.round (g3.player i))) : Game }).player i with
                    hand := ((({ g3 with players := g3.players.set i (applyPlays g3.round
                      (g3.player i) (pa g3.round (g3.player i))) : Game }).player i).hand.erase
                      (ra g3.round (({ g3 with players := g3.players.set i (applyPlays g3.round
                        (g3.player i) (pa g3.round (g3.player i))) : Game }).player i))) }) := by
                refine playersInv_set (hinv4 hin) ?_ i
                exact playerInv_same_area_books rfl rfl (playersInv_player (hinv4 hin) i)
              refine playersInv_set hin5 ?_ i
              exact playerInv_same_area_books rfl rfl (playersInv_player hin5 i)
            · intro e' he'
              rw [← hr] at he'
              exact absurd he' (by simp)
          · injection h with h'
            injection h' with hg hr
            subst hg
            refine ⟨hl3, ?_, ?_⟩
            · intro hin
              refine playersInv_set (hinv4 hin) ?_ i
              exact playerInv_same_area_books rfl rfl (playersInv_player (hinv4 hin) i)
            · intro e' he'
              rw [← hr] at he'
              exact absurd he' (by simp)
        · injection h with h'
          injection h' with hg hr
          subst hg
          refine ⟨hl3, ?_, ?_⟩
          · intro hin
            refine playersInv_set (hinv4 hin) ?_ i
            exact playerInv_same_area_books rfl rfl (playersInv_player (hinv4 hin) i)
          · intro e' he'
            rw [← hr] at he'
            exact absurd he' (by simp)
      · exact absurd h (by simp)

theorem take_turn_facts (g : Game) (i : Nat)
    (da : Round → PlayerCards → DrawAction)
    (pa : Round → PlayerCards → List (List (Rank × List Card)))
    (ra : Round → PlayerCards → Card) (g' : Game)
    (res : Except TurnError TurnResult)
    (h : g.take_turn i da pa ra = some (g', res)) :
    g'.locked = g.locked ∧
    (PlayersInv g.players → PlayersInv g'.players) ∧
    (∀ e, res = Except.error e → e = TurnError.NotEnoughCards) := by
  unfold Game.take_turn at h
  cases hres : g.resolve_red_threes i with
  | mk g1 e1 =>
    rw [hres] at h
    have hl1 : g1.locked = g.locked := by
      have hx := resolve_locked g i
      rw [hres] at hx
      exact hx
    have hi1 : PlayersInv g.players → PlayersInv g1.players := by
      intro hin
      have hx := resolve_inv g i hin
      rw [hres] at hx
      exact hx
    cases e1 with
    | some e =>
      injection h with h'
      injection h' with hg hr
      subst hg
      refine ⟨hl1, hi1, ?_⟩
      intro e' he'
      rw [← hr] at he'
      injection he' with he2
      subst he2
      have hx : (g.resolve_red_threes i).2 = some e := by rw [hres]
      exact resolve_error g i e hx
    | none =>
      dsimp only at h
      have hstep : ∀ (g2 : Game),
          (PlayersInv g.players → PlayersInv g2.players) →
          g2.locked = g.locked →
          g2.turnTail i pa ra = some (g', res) →
          g'.locked = g.locked ∧
          (PlayersInv g.players → PlayersInv g'.players) ∧
          (∀ e, res = Except.error e → e = TurnError.NotEnoughCards) := by
        intro g2 hia hlb htail
        obtain ⟨ht1, ht2, ht3⟩ := turnTail_facts g2 i pa ra g' res htail
        exact ⟨by rw [ht1, hlb], fun hin => ht2 (hia hin), ht3⟩
      cases hda : da g1.round (g1.player i) with
      | Pickup tp =>
        rw [hda] at h
        dsimp only at h
        cases hpu : g1.pickup i tp with
        | mk g2 e2 =>
          rw [hpu] at h
          have hl2 : g2.locked = g.locked := by
            have hx := pickup_locked g1 i tp
            rw [hpu] at hx
            rw [hx, hl1]
          have hi2 : PlayersInv g.players → PlayersInv g2.players := by
            intro hin
            have hx := pickup_inv g1 i tp (hi1 hin)
            rw [hpu] at hx
            exact hx
          cases e2 with
          | some e2a =>
            dsimp only at h
            cases hdr : g2.draw i with
            | mk g3 e3 =>
              rw [hdr] at h
              have hl3 : g3.locked = g.locked := by
                have hx := draw_locked g2 i
                rw [hdr] at hx
                rw [hx, hl2]
              have hi3 : PlayersInv g.players → PlayersInv g3.players := by
                intro hin
                have hx := draw_inv g2 i (hi2 hin)
                rw [hdr] at hx
                exact hx
              cases e3 with
              | some e4 =>
                injection h with h'
                injection h' with hg hr
                subst hg
                refine ⟨hl3, hi3, ?_⟩
                intro e' he'
                rw [← hr] at he'
                injection he' with he2
                subst he2
                have hx : (g2.draw i).2 = some e4 := by rw [hdr]
                exact draw_error g2 i e4 hx
              | none => exact hstep g3 hi3 hl3 h
          | none => exact hstep g2 hi2 hl2 h
      | Draw =>
        rw [hda] at h
        dsimp only at h
        cases hdr : g1.draw i with
        | mk g2 e2 =>
          rw [hdr] at h
          have hl2 : g2.locked = g.locked := by
            have hx := draw_locked g1 i
            rw [hdr] at hx
            rw [hx, hl1]
          have hi2 : PlayersInv g.players → PlayersInv g2.players := by
            intro hin
            have hx := draw_inv g1 i (hi1 hin)
            rw [hdr] at hx
            exact hx
          cases e2 with
          | some e2a =>
            injection h with h'
            injection h' with hg hr
            subst hg
            refine ⟨hl2, hi2, ?_⟩
            intro e' he'
            rw [← hr] at he'
            injection he' with he2
            subst he2
            have hx : (g1.draw i).2 = some e2a := by rw [hdr]
            exact draw_error g1 i e2a hx
          | none => exact hstep g2 hi2 hl2 h

/-! ## Helper lemmas: `deal` and reachability -/

theorem dealPlayers_inv (n : Nat) : ∀ (deck : List Card),
    PlayersInv (dealPlayers deck n).1 := by
  induction n with
  | zero =>
    intro deck q hq
    simp [dealPlayers] at hq
  | succ n ih =>
    intro deck q hq
    unfold dealPlayers at hq
    dsimp only at hq
    rw [List.mem_cons] at hq
    rcases hq with hq | hq
    · subst hq
      constructor
      · intro e he
        simp at he
      · intro b hb
        simp at hb
    · exact ih _ q hq

theorem deal_inv (round : Round) (n : Nat) (deck : List Card) :
    AmendedInvariant (Game.deal round n deck) := by
  unfold AmendedInvariant Game.deal
  exact dealPlayers_inv n deck

theorem deal_locked (round : Round) (n : Nat) (deck : List Card) :
    (Game.deal round n deck).locked = false := rfl

theorem reachable_inv {g : Game} (h : Reachable g) : AmendedInvariant g := by
  induction h with
  | base round n deck hperm => exact deal_inv round n deck
  | step g i da pa ra g' r hre hi hturn ih =>
    exact (take_turn_facts g i da pa ra g' (Except.ok r) hturn).2.1 ih

theorem reachable_locked {g : Game} (h : Reachable g) : g.locked = false := by
  induction h with
  | base round n deck hperm => rfl
  | step g i da pa ra g' r hre hi hturn ih =>
    rw [(take_turn_facts g i da pa ra g' (Except.ok r) hturn).1]
    exact ih

theorem take_turn_error_nec (g : Game) (i : Nat)
    (da : Round → PlayerCards → DrawAction)
    (pa : Round → PlayerCards → List (List (Rank × List Card)))
    (ra : Round → PlayerCards → Card) (g' : Game) (e : TurnError)
    (h : g.take_turn i da pa ra = some (g', Except.error e)) :
    e = TurnError.NotEnoughCards :=
  (take_turn_facts g i da pa ra g' (Except.error e) h).2.2 e rfl

/-! ## Helper lemmas: red-three resolution characterised -/

theorem deckTake_eq_some {d : List Card} {n : Nat} {drawn rest : List Card}
    (h : deckTake d n = some (drawn, rest)) :
    n ≤ d.length ∧ drawn = d.take n ∧ rest = d.drop n := by
  unfold deckTake at h
  split at h
  · next hle =>
    injection h with h'
    injection h' with h1 h2
    exact ⟨hle, h1.symm, h2.symm⟩
  · exact absurd h (by simp)

theorem resolveAux_isSome : ∀ (fuel : Nat) (g : Game) (i : Nat),
    g.deck.length < fuel → (Game.resolveAux fuel g i).isSome = true := by
  intro fuel
  induction fuel with
  | zero => intro g i h; omega
  | succ fuel ih =>
    intro g i h
    unfold Game.resolveAux
    dsimp only
    split
    · rfl
    · next hk =>
      cases hdt : deckTake g.deck ((g.player i).hand.countP isRedThree) with
      | none => rfl
      | some p =>
        obtain ⟨drawn, deck1⟩ := p
        dsimp only
        apply ih
        obtain ⟨hle, -, hdeck1⟩ := deckTake_eq_some hdt
        have hlen : deck1.length = g.deck.length -
            (g.player i).hand.countP isRedThree := by
          rw [hdeck1, List.length_drop]
        show deck1.length < fuel
        omega

theorem countP_filter_not (p : Card → Bool) (l : List Card) :
    (l.filter fun a => !p a).countP p = 0 := by
  rw [List.countP_eq_zero]
  intro a ha
  rw [List.mem_filter] at ha
  simp only [Bool.not_eq_true'] at ha
  rw [ha.2]
  simp

theorem filter_not_idem (p : Card → Bool) (l : List Card) :
    ((l.filter fun a => !p a).filter fun a => !p a) = l.filter fun a => !p a := by
  rw [List.filter_eq_self]
  intro a ha
  rw [List.mem_filter] at ha
  exact ha.2

theorem resolveAux_ok : ∀ (fuel : Nat) (g : Game) (i : Nat) (g' : Game),
    i < g.players.length →
    Game.resolveAux fuel g i = some (g', none) →
    ResolveOkSpec g i g' := by
  intro fuel
  induction fuel with
  | zero => intro g i g' hi h; simp [Game.resolveAux] at h
  | succ fuel ih =>
    intro g i g' hi h
    unfold Game.resolveAux at h
    dsimp only at h
    split at h
    · next hk =>
      injection h with h'
      injection h' with h1 h2
      subst h1
      unfold ResolveOkSpec
      dsimp only
      rw [Nat.sub_self]
      refine ⟨hk, rfl, Nat.le_refl _, by rw [List.drop_zero], by simp [hk], ?_⟩
      rw [List.take_zero, List.append_nil]
      refine (List.filter_eq_self.mpr ?_).symm
      intro a ha
      rw [List.countP_eq_zero] at hk
      simp [hk a ha]
    · next hk =>
      cases hdt : deckTake g.deck ((g.player i).hand.countP isRedThree) with
      | none => rw [hdt] at h; exact absurd h (by simp)
      | some dp =>
        obtain ⟨drawn, deck1⟩ := dp
        rw [hdt] at h
        dsimp only at h
        obtain ⟨hle, hdrawn, hdeck1⟩ := deckTake_eq_some hdt
        rw [List.set_set] at h
        have ihx := ih _ i g' (by rw [List.length_set]; exact hi) h
        have hproj : (Game.mk
            (g.players.set i (PlayerCards.mk
              (((g.player i).hand.filter (fun c => !(isRedThree c))) ++ drawn)
              (g.player i).foot (g.player i).books
              ((g.player i).red_threes + (g.player i).hand.countP isRedThree)
              (g.player i).play_area))
            g.round deck1 g.locked g.discard_pile).player i =
            PlayerCards.mk
              (((g.player i).hand.filter (fun c => !(isRedThree c))) ++ drawn)
              (g.player i).foot (g.player i).books
              ((g.player i).red_threes + (g.player i).hand.countP isRedThree)
              (g.player i).play_area :=
          player_set_self hi _
        unfold ResolveOkSpec at ihx ⊢
        dsimp only at ihx ⊢
        rw [hproj] at ihx
        obtain ⟨c1, c2, c3, c4, c5, c6⟩ := ihx
        dsimp only at c1 c2 c3 c4 c5 c6
        set p := g.player i with hp
        set k := p.hand.countP isRedThree with hkdef
        set t2 := (g'.player i).red_threes - (p.red_threes + k) with ht2
        have hkle : k ≤ p.hand.length := List.countP_le_length _
        have hdlen : drawn.length = k := by
          rw [hdrawn, List.length_take, Nat.min_eq_left hle]
        have ht : (g'.player i).red_threes - p.red_threes = t2 + k := by omega
        constructor
        · exact c1
        constructor
        · rw [c2, List.length_append, hdlen, ← List.countP_eq_length_filter]
          have hcc := countP_add_countP_not isRedThree p.hand
          omega
        constructor
        · omega
        constructor
        · rw [c4, hdeck1, List.drop_drop, ht]
          rw [Nat.add_comm k t2]
        constructor
        · rw [ht, Nat.add_comm t2 k, List.take_add]
          rw [List.countP_append, List.countP_append, ← hdrawn, ← hdeck1]
          have hc5 : t2 = (p.hand.filter (fun c => !(isRedThree c)) ++ drawn ++
              deck1.take t2).countP isRedThree := c5
          rw [List.countP_append, List.countP_append] at hc5
          rw [countP_filter_not] at hc5
          omega
        · rw [ht, Nat.add_comm t2 k, List.take_add, ← hdrawn, ← hdeck1, c6]
          rw [List.filter_append, List.filter_append, List.filter_append,
            List.filter_append, filter_not_idem, List.append_assoc]

/-! ## Helper lemmas: meld threshold and rule characterisation -/

theorem can_play_meld_iff (p : PlayerCards) (round : Round)
    (groups : List (Rank × List Card)) (hm : p.hasMelded = false) :
    (p.can_play round groups = some TurnError.NotEnoughMeld ↔
      groupPoints groups < round.meld) := by
  unfold PlayerCards.can_play
  split
  · next hc => simp [hc.2]
  · next hc =>
    constructor
    · intro hcontra
      exact absurd hcontra (firstRankErr_ne_meld p groups)
    · intro hlt
      exact absurd ⟨hm, hlt⟩ hc

theorem can_play_rank_eq_spec (p : PlayerCards) (rank : Rank) (cards : List Card) :
    p.can_play_rank rank cards = canPlayRankSpec p rank cards := by
  unfold PlayerCards.can_play_rank canPlayRankSpec
  have h1 : ((cards.all fun c => c.is_wild || (match c with
      | Card.Regular r _ => r == rank
      | Card.Joker => false)) = false) ↔
      ¬ ∀ c ∈ cards, c.is_wild = true ∨ c.rank = some rank := by
    rw [Bool.eq_false_iff, Ne]
    apply not_congr
    rw [List.all_eq_true]
    apply forall_congr'
    intro c
    apply imp_congr Iff.rfl
    cases c with
    | Regular r s =>
      simp [Card.rank, Bool.or_eq_true, beq_iff_eq]
    | Joker =>
      simp [Card.rank, Card.is_wild]
  have h2 : ((cardsLeftAfter p.hand cards).isEmpty = false) ↔
      ¬ ∀ c ∈ cards, cards.count c ≤ p.hand.count c := by
    rw [Bool.eq_false_iff, Ne]
    apply not_congr
    rw [cardsLeftAfter_isEmpty_iff, Multiset.le_iff_count]
    constructor
    · intro h c _
      have := h c
      simpa using this
    · intro h a
      by_cases ha : a ∈ cards
      · simpa using h a ha
      · have : cards.count a = 0 := List.count_eq_zero_of_not_mem ha
        simp [this]
  have h5 : (((areaGet p.play_area rank).getD []).length + cards.length -
        (((areaGet p.play_area rank).getD []).countP Card.is_wild +
          cards.countP Card.is_wild) ≤
        ((areaGet p.play_area rank).getD []).countP Card.is_wild +
          cards.countP Card.is_wild) ↔
      ¬ combinedWilds p rank cards < combinedNonWilds p rank cards := by
    unfold combinedWilds combinedNonWilds
    have e1 := countP_add_countP_not Card.is_wild ((areaGet p.play_area rank).getD [])
    have e2 := countP_add_countP_not Card.is_wild cards
    omega
  dsimp only
  refine if_congr h1 rfl (if_congr h2 rfl (if_congr Iff.rfl rfl
    (if_congr Iff.rfl rfl (if_congr h5 rfl rfl))))

/-! ## Helper lemmas: the hand-retention rule in `play_rank` -/

theorem play_rank_low_hand (p : PlayerCards) (rank : Rank) (cards : List Card)
    (hcr : p.can_play_rank rank cards = none) (hf : p.foot = none)
    (hlen : p.hand.length ≤ cards.length + 1) :
    (((p.play_rank rank cards).2 = none) ↔
      (p.can_go_out = true ∧ p.hand.length = cards.length + 1)) ∧
    ((p.play_rank rank cards).2 ≠ none →
      (p.play_rank rank cards).2 = some TurnError.MustKeepOneCardInHand ∧
      (((p.play_rank rank cards).1.hand : Multiset Card) =
        (p.hand : Multiset Card))) := by
  have hsub : (cards : Multiset Card) ≤ (p.hand : Multiset Card) :=
    (can_play_rank_facts hcr).1
  have hcl : cards.length ≤ p.hand.length := cards_length_le_of_le hsub
  have hrl : (removeFromHand p.hand cards).length = p.hand.length - cards.length :=
    removeFromHand_length p.hand cards hsub
  unfold PlayerCards.play_rank
  rw [hcr]
  dsimp only
  rw [hf]
  have hcond : ((removeFromHand p.hand cards).length = 0 ∧
      (none : Option (List Card)).isSome = true) ∨
      ((none : Option (List Card)).isNone = true ∧
      (removeFromHand p.hand cards).length ≤ 1) := by
    right
    constructor
    · rfl
    · omega
  rw [if_pos hcond]
  dsimp only
  split
  · next hko =>
    constructor
    · constructor
      · intro hcontra
        exact absurd hcontra (by simp)
      · rintro ⟨hcg, hl⟩
        rcases hko with hko | hko
        · rw [hcg] at hko
          exact absurd hko (by simp)
        · omega
    · intro _
      refine ⟨rfl, ?_⟩
      exact removeFromHand_append_coe p.hand cards hsub
  · next hko =>
    push_neg at hko
    obtain ⟨hko1, hko2⟩ := hko
    have hcg : p.can_go_out = true := by
      cases hcgv : p.can_go_out with
      | false => exact absurd hcgv hko1
      | true => rfl
    split
    · constructor
      · constructor
        · intro _
          exact ⟨hcg, by omega⟩
        · intro _
          rfl
      · intro hne
        exact absurd rfl hne
    · constructor
      · constructor
        · intro _
          exact ⟨hcg, by omega⟩
        · intro _
          rfl
      · intro hne
        exact absurd rfl hne

/-! ## Helper lemmas: scoring -/

theorem sumPoints_append (a b : List Card) :
    sumPoints (a ++ b) = sumPoints a + sumPoints b := by
  unfold sumPoints
  rw [List.map_append, List.sum_append]

theorem sumPoints_flatten (l : List (List Card)) :
    sumPoints l.flatten = (l.map fun b => (b.map Card.points).sum).sum := by
  induction l with
  | nil => rfl
  | cons b t ih =>
    rw [List.flatten_cons, sumPoints_append, List.map_cons, List.sum_cons, ih]
    rfl

theorem sumPoints_flatMap (pa : List (Rank × List Card)) :
    sumPoints (pa.flatMap fun e => e.2) =
      (pa.map fun e => (e.2.map Card.points).sum).sum := by
  induction pa with
  | nil => rfl
  | cons e t ih =>
    rw [List.flatMap_cons, sumPoints_append, List.map_cons, List.sum_cons, ih]
    rfl

theorem nonwild_rank_eq_head {b : List Card} {c0 : Card} {rest : List Card}
    (hb : b = c0 :: rest) (hwf : WFBook b)
    (hall : b.all (fun c => !c.is_wild) = true) :
    ∀ c ∈ b, c.rank = c0.rank := by
  intro c hc
  rw [List.all_eq_true] at hall
  have hc0 : c0 ∈ b := hb ▸ List.mem_cons_self _ _
  have h1 := hall c hc
  have h2 := hall c0 hc0
  simp only [Bool.not_eq_true'] at h1 h2
  exact hwf.2 c hc c0 hc0 h1 h2

theorem clean_filter_eq {books : List (List Card)}
    (hwf : ∀ b ∈ books, WFBook b) :
    books.filter (fun book =>
      (book.all fun c => !c.is_wild) && !(headRank book == some Rank.Seven)) =
    books.filter specCleanBook := by
  apply List.filter_congr
  intro b hb
  unfold specCleanBook
  cases hall : b.all (fun c => !c.is_wild) with
  | false => simp
  | true =>
    simp only [Bool.true_and]
    obtain ⟨hne, -⟩ := hwf b hb
    obtain ⟨c0, rest, hb0⟩ : ∃ c0 rest, b = c0 :: rest := by
      cases b with
      | nil => exact absurd rfl hne
      | cons x xs => exact ⟨x, xs, rfl⟩
    have hranks := nonwild_rank_eq_head hb0 (hwf b hb) hall
    congr 1
    rw [Bool.eq_iff_iff]
    constructor
    · intro h7
      rw [hb0] at h7 ⊢
      simp only [headRank, beq_iff_eq] at h7
      rw [List.all_eq_true]
      intro c hc
      have := hranks c (hb0 ▸ hc)
      simp [this, h7]
    · intro h7
      rw [List.all_eq_true] at h7
      have := h7 c0 (hb0 ▸ List.mem_cons_self _ _)
      rw [hb0]
      simp only [headRank]
      simpa using this

theorem seven_filter_eq {books : List (List Card)}
    (hwf : ∀ b ∈ books, WFBook b) :
    books.filter (fun book =>
      (book.all fun c => !c.is_wild) && (headRank book == some Rank.Seven)) =
    books.filter specSevenBook := by
  apply List.filter_congr
  intro b hb
  unfold specSevenBook
  cases hall : b.all (fun c => !c.is_wild) with
  | false => simp
  | true =>
    simp only [Bool.true_and]
    obtain ⟨hne, -⟩ := hwf b hb
    obtain ⟨c0, rest, hb0⟩ : ∃ c0 rest, b = c0 :: rest := by
      cases b with
      | nil => exact absurd rfl hne
      | cons x xs => exact ⟨x, xs, rfl⟩
    have hranks := nonwild_rank_eq_head hb0 (hwf b hb) hall
    rw [Bool.eq_iff_iff]
    constructor
    · intro h7
      rw [hb0] at h7
      simp only [headRank, beq_iff_eq] at h7
      rw [List.all_eq_true]
      intro c hc
      have := hranks c hc
      simp [this, h7]
    · intro h7
      rw [List.all_eq_true] at h7
      have := h7 c0 (hb0 ▸ List.mem_cons_self _ _)
      rw [hb0]
      simp only [headRank]
      simpa using this

theorem dirty_filter_eq (books : List (List Card)) :
    books.filter (fun book => !(book.all fun c => !c.is_wild)) =
    books.filter specDirtyBook := by
  apply List.filter_congr
  intro b _
  unfold specDirtyBook
  rw [List.any_eq_not_all_not]

theorem score_eq_spec_aux {g : Game} (hwf : WFBooks g) :
    g.score = g.scoreSpec := by
  unfold Game.score Game.scoreSpec
  apply List.map_congr_left
  intro p hp
  have hwfp : ∀ b ∈ p.books, WFBook b := hwf p hp
  dsimp only
  unfold PlayerCards.clean_books PlayerCards.dirty_books PlayerCards.seven_books
  rw [clean_filter_eq hwfp, seven_filter_eq hwfp, dirty_filter_eq]
  rw [sumPoints_append, sumPoints_flatten, sumPoints_flatMap, sumPoints_append]
  unfold sumPoints
  push_cast
  ring

/-! ## The claims -/

/-- Claim C1 (refuted, code bug): card conservation fails.  `exGame` is a
genuine `Game.deal` product (108 = 54·2 cards for `numPlayers = 1`), one
completed `take_turn` later the total across deck, discard pile, hands,
feet, play areas and books is 107: the discarded card was removed from the
hand but never pushed onto the discard pile, so it left every zone. -/
theorem claim_C1_conservation_fails :
    exDeck.Perm (dealDeckList 1) ∧
    (dealDeckList 1).length = 108 ∧
    Game.totalCards exGame = 108 ∧
    exResult = some (exGameAfter, Except.ok TurnResult.Over) ∧
    Game.totalCards exGameAfter = 107 := by
  refine ⟨by decide, by decide, by decide, by decide, by decide⟩

/-- Claim C2 (refuted, code bug): in the discard phase the strategy names
the Three of Clubs, which is in hand; the card is removed from the hand
(count drops 1 → 0) but the discard pile stays empty instead of growing by
one with that card on top. -/
theorem claim_C2_discard_never_reaches_pile :
    exGame.discard_pile = [] ∧
    (exGame.player 0).hand.count (Card.Regular Rank.Three Suit.Club) = 1 ∧
    exResult = some (exGameAfter, Except.ok TurnResult.Over) ∧
    (exGameAfter.player 0).hand.count (Card.Regular Rank.Three Suit.Club) = 0 ∧
    exGameAfter.discard_pile = [] := by
  refine ⟨by decide, by decide, by decide, by decide, by decide⟩

/-- Claim C3 (refuted, code bug): `play` is not atomic on failure.  Both
groups of `c3groups` pass `can_play` individually (they share the one
Joker in hand), `play` commits the Four group, then fails the Five group
with `NotAllCardsInHand` — and returns the error with the Four group still
committed: the hand has lost three cards and `playArea[Four]` holds them. -/
theorem claim_C3_play_not_atomic :
    (c3p.play Round.One c3groups).2 = some TurnError.NotAllCardsInHand ∧
    areaGet (c3p.play Round.One c3groups).1.play_area Rank.Four =
      some [Card.Regular Rank.Four Suit.Diamond, Card.Regular Rank.Four Suit.Club,
        Card.Joker] ∧
    ¬ (((c3p.play Round.One c3groups).1.hand : Multiset Card) =
        (c3p.hand : Multiset Card)) := by
  refine ⟨by decide, by decide, by decide⟩

/-- Claim C4 (counterexample): a play that passes `canPlayRank`, would
empty the hand (`hand.length ≤ cards.length + 1`, in fact equal), with no
foot, by a player who *can already go out* — the claim says it succeeds —
fails with `MustKeepOneCardInHand`. -/
theorem claim_C4_counterexample :
    c4p.can_play_rank Rank.Four c4cards = none ∧
    c4p.foot = none ∧
    c4p.hand.length ≤ c4cards.length + 1 ∧
    c4p.can_go_out = true ∧
    (c4p.play_rank Rank.Four c4cards).2 = some TurnError.MustKeepOneCardInHand := by
  refine ⟨by decide, by decide, by decide, by decide, by decide⟩

/-- Claim C4 (amended): for a `playRank` whose cards pass `canPlayRank`
and whose removal would leave at most one card while the foot is `None`,
the call succeeds exactly when the player can already go out *and* exactly
one card remains (a play emptying the hand always fails); otherwise it
fails with `MustKeepOneCardInHand` and the hand's multiset is unchanged. -/
theorem claim_C4_amended (p : PlayerCards) (rank : Rank) (cards : List Card)
    (hcr : p.can_play_rank rank cards = none) (hf : p.foot = none)
    (hlen : p.hand.length ≤ cards.length + 1) :
    (((p.play_rank rank cards).2 = none) ↔
      (p.can_go_out = true ∧ p.hand.length = cards.length + 1)) ∧
    ((p.play_rank rank cards).2 ≠ none →
      (p.play_rank rank cards).2 = some TurnError.MustKeepOneCardInHand ∧
      (((p.play_rank rank cards).1.hand : Multiset Card) =
        (p.hand : Multiset Card))) :=
  play_rank_low_hand p rank cards hcr hf hlen

/-- Claim C4 witness: the amended theorem applied to a concrete player
(`c4q`, who holds one extra King so the play leaves exactly one card). -/
theorem claim_C4_witness :
    (c4q.can_play_rank Rank.Four c4cards = none ∧ c4q.foot = none ∧
      c4q.hand.length ≤ c4cards.length + 1) ∧
    ((((c4q.play_rank Rank.Four c4cards).2 = none) ↔
      (c4q.can_go_out = true ∧ c4q.hand.length = c4cards.length + 1)) ∧
     ((c4q.play_rank Rank.Four c4cards).2 ≠ none →
      (c4q.play_rank Rank.Four c4cards).2 = some TurnError.MustKeepOneCardInHand ∧
      (((c4q.play_rank Rank.Four c4cards).1.hand : Multiset Card) =
        (c4q.hand : Multiset Card)))) :=
  ⟨⟨by decide, by decide, by decide⟩,
   claim_C4_amended c4q Rank.Four c4cards (by decide) (by decide) (by decide)⟩

/-- Claim C5 (counterexample): a reachable state violating the claimed
invariant.  `exGame5After` is reached from a real deal (a permutation of
the two-deck population) by one successful turn in which the player melds
seven Aces; the promoted book leaves `playArea[Ace] = some []`, an entry
with 0 cards — neither of size 3–7 nor with fewer wilds than non-wilds. -/
theorem claim_C5_counterexample :
    Reachable exGame5After ∧ ¬ ClaimedInvariant exGame5After := by
  constructor
  · refine Reachable.step exGame5 0 exDraw exPlay5 exDiscard exGame5After
      TurnResult.Over ?_ (by decide) (by decide)
    exact Reachable.base Round.One 1 exDeck5 (by decide)
  · decide

/-- Claim C5 (amended): in every reachable state, every *non-empty*
play-area entry has between 3 and 7 cards with strictly fewer wild than
non-wild cards, and every book has exactly 7 cards with strictly fewer
wild than non-wild cards; play-area entries may additionally be empty
(left behind by a book promotion or by the `MustKeepOneCardInHand`
rollback). -/
theorem claim_C5_amended (g : Game) (h : Reachable g) : AmendedInvariant g :=
  reachable_inv h

/-- Claim C5 witness: the amended invariant at a freshly dealt game. -/
theorem claim_C5_witness : AmendedInvariant (Game.deal Round.One 1 (dealDeckList 1)) :=
  claim_C5_amended _ (Reachable.base Round.One 1 (dealDeckList 1) (List.Perm.refl _))

/-- Claim C6 (confirmed): when the player has never melded, `can_play`
returns `NotEnoughMeld` exactly when the total points of the proposed
groups are below the round's threshold, and the thresholds are 90, 120,
150, 180 for rounds One through Four. -/
theorem claim_C6_meld_threshold (p : PlayerCards) (round : Round)
    (groups : List (Rank × List Card)) (hm : p.hasMelded = false) :
    (p.can_play round groups = some TurnError.NotEnoughMeld ↔
      groupPoints groups < round.meld) ∧
    (Round.One.meld = 90 ∧ Round.Two.meld = 120 ∧ Round.Three.meld = 150 ∧
      Round.Four.meld = 180) :=
  ⟨can_play_meld_iff p round groups hm, by decide⟩

/-- Claim C6 witness: three Fours (15 points) as a first meld in round One
(threshold 90) are rejected with `NotEnoughMeld`. -/
theorem claim_C6_witness :
    cp6.hasMelded = false ∧
    ((cp6.can_play Round.One g6 = some TurnError.NotEnoughMeld ↔
      groupPoints g6 < Round.One.meld) ∧
     (Round.One.meld = 90 ∧ Round.Two.meld = 120 ∧ Round.Three.meld = 150 ∧
      Round.Four.meld = 180)) :=
  ⟨by decide, claim_C6_meld_threshold cp6 Round.One g6 (by decide)⟩

/-- Claim C7 (counterexample): the minimum-size-3 rule is *not* restricted
to absent `playArea[rank]` entries.  `c7p`'s `playArea[Four]` exists (it is
the empty entry a completed Four book leaves behind), the play has fewer
than 3 new cards, and `canPlayRank` rejects it with `TooFewCardsInBook` —
the claim says that rule cannot fire on an existing entry. -/
theorem claim_C7_counterexample :
    areaGet c7p.play_area Rank.Four = some [] ∧
    c7cards.length < 3 ∧
    c7p.can_play_rank Rank.Four c7cards = some TurnError.TooFewCardsInBook := by
  refine ⟨by decide, by decide, by decide⟩

/-- Claim C7 (amended): `canPlayRank` evaluates the five rules in the fixed
specification order and returns the first violated rule's error, with rule
4 reading "the combined size (existing entry + new cards) must be at least
3", regardless of whether the entry exists — `canPlayRankSpec` is that
rule list, and the source function equals it everywhere. -/
theorem claim_C7_amended (p : PlayerCards) (rank : Rank) (cards : List Card) :
    p.can_play_rank rank cards = canPlayRankSpec p rank cards :=
  can_play_rank_eq_spec p rank cards

/-- Claim C8 (confirmed): `score` equals the specification's formula
`500·clean + 300·dirty + 1500·seven + Σ(books and playArea) + 100·redThrees
− Σ(hand and foot)` with the specification's book classification (clean =
no wilds and not all Sevens; dirty = some wild; seven = no wilds and all
Sevens), for every game whose books are well-formed (non-empty, non-wild
cards of one rank) — the shape every reachable book has. -/
theorem claim_C8_score (g : Game) (hwf : WFBooks g) : g.score = g.scoreSpec :=
  score_eq_spec_aux hwf

/-- Claim C8 witness: the score identity at a concrete game with a clean
book, a dirty book, a seven book, play-area cards, hand, foot and banked
red threes. -/
theorem claim_C8_witness : WFBooks cg8 ∧ cg8.score = cg8.scoreSpec :=
  ⟨by decide, claim_C8_score cg8 (by decide)⟩

/-- Claim C9 (confirmed): red-three resolution terminates (the fuel
`deck.length + 1` always suffices), and for a valid player index: on `Ok`
the hand holds no red Three, its size is unchanged, the banked count rose
by exactly the number of red Threes removed (those of the original hand
plus red Threes among the replacements), and one replacement card was
drawn off the top of the deck per removed red Three; the only possible
error is `NotEnoughCards`, returned when the deck runs out. -/
theorem claim_C9_red_threes (g : Game) (i : Nat) (hi : i < g.players.length) :
    (Game.resolveAux (g.deck.length + 1) g i).isSome = true ∧
    (∀ g', g.resolve_red_threes i = (g', none) → ResolveOkSpec g i g') ∧
    (∀ g' e, g.resolve_red_threes i = (g', some e) →
      e = TurnError.NotEnoughCards) := by
  refine ⟨resolveAux_isSome _ g i (Nat.lt_succ_self _), ?_, ?_⟩
  · intro g' h
    unfold Game.resolve_red_threes at h
    cases hres : Game.resolveAux (g.deck.length + 1) g i with
    | none =>
      rw [hres] at h
      simp only [Option.getD_none] at h
      have h2 : (some TurnError.NotEnoughCards : Option TurnError) = none :=
        congrArg Prod.snd h
      exact absurd h2 (by simp)
    | some pr =>
      obtain ⟨g1, e1⟩ := pr
      rw [hres] at h
      simp only [Option.getD_some] at h
      have h1 : g1 = g' := congrArg Prod.fst h
      have h2 : e1 = none := congrArg Prod.snd h
      subst h1
      subst h2
      exact resolveAux_ok _ g i _ hi hres
  · intro g' e h
    have h2 : (g.resolve_red_threes i).2 = some e := by rw [h]
    exact resolve_error g i e h2

/-- Claim C9 witness: resolving `cg9` (one red Three in hand, whose
replacement is itself a red Three) banks two red Threes and terminates. -/
theorem claim_C9_witness :
    0 < cg9.players.length ∧ ResolveOkSpec cg9 0 cg9After :=
  ⟨by decide, (claim_C9_red_threes cg9 0 (by decide)).2.1 cg9After (by decide)⟩

/-- Claim C10 (confirmed): `deal` initialises `locked` to `false` and no
operation ever sets it to `true` (`resolve_red_threes`, `draw` and
`pickup` all preserve it), so every reachable state has `locked = false`;
moreover a completed `take_turn` can only return the error
`NotEnoughCards`, so no sequence of turns ever surfaces
`DeckIsLockedNeedTwoInHand`. -/
theorem claim_C10_lock_never_set (g : Game) :
    (∀ round n deck, (Game.deal round n deck).locked = false) ∧
    (∀ i, (g.resolve_red_threes i).1.locked = g.locked) ∧
    (∀ i, (g.draw i).1.locked = g.locked) ∧
    (∀ i tp, (g.pickup i tp).1.locked = g.locked) ∧
    (Reachable g → g.locked = false) ∧
    (∀ (i : Nat) (da : Round → PlayerCards → DrawAction)
       (pa : Round → PlayerCards → List (List (Rank × List Card)))
       (ra : Round → PlayerCards → Card) (g' : Game) (e : TurnError),
      g.take_turn i da pa ra = some (g', Except.error e) →
      e = TurnError.NotEnoughCards) :=
  ⟨fun round n deck => deal_locked round n deck,
   fun i => resolve_locked g i,
   fun i => draw_locked g i,
   fun i tp => pickup_locked g i tp,
   fun h => reachable_locked h,
   fun i da pa ra g' e h => take_turn_error_nec g i da pa ra g' e h⟩

/-- Claim C10 witness: the lock invariant at a freshly dealt game, and an
erroring turn (empty deck) whose error is `NotEnoughCards`, not
`DeckIsLockedNeedTwoInHand`. -/
theorem claim_C10_witness :
    (Game.deal Round.One 1 (dealDeckList 1)).locked = false ∧
    TurnError.NotEnoughCards = TurnError.NotEnoughCards :=
  ⟨(claim_C10_lock_never_set (Game.deal Round.One 1 (dealDeckList 1))).2.2.2.2.1
     (Reachable.base Round.One 1 (dealDeckList 1) (List.Perm.refl _)),
   (claim_C10_lock_never_set g10).2.2.2.2.2 0 exDraw exPlay exDiscard g10
     TurnError.NotEnoughCards (by decide)⟩
